import Mathlib

/-!
Verification of the autonomous code-evolution pipeline of openclaw-sidex-kit.

This file gives a shallow embedding, in Lean 4, of the pipeline components
(ProposalJudge, CodePlanner, CodeWriter, InboxCollector, EvolutionDaemon) and
proves or refutes the stated properties against that embedding.

Conventions of the embedding:
 * JavaScript numbers that carry score/threshold values are modelled as ℚ.
 * The untrusted Oracle (LLM) response is modelled at the boundary where the
   JavaScript code has finished JSON extraction: a value of type
   `Option ParsedEval` (`none` = `JSON.parse` threw) plus the raw response
   text.  An Oracle transport failure is an `Except.error`.
 * The file system is an association list from absolute path strings to file
   contents; `path.join` on the paths exercised here is string concatenation
   with a separating slash (no `..` segment survives validation, so no
   normalisation is needed).
 * JavaScript number formatting inside log strings is abstracted by `numStr`;
   no proved statement depends on the rendering of a number.
-/

namespace OpenClaw

/-! ## Small string helpers (JS semantics) -/

/-- Whitespace test used by the regex `\s` class (ASCII part, which is all the
scanned source patterns exercise). -/
def jsWs (c : Char) : Bool :=
  c == ' ' || c == '\t' || c == '\n' || c == '\r' || c == '\x0b' || c == '\x0c'

/-- Substring search on character lists: does `pat` occur inside `s`? -/
def subSearch (pat : List Char) : List Char → Bool
  | [] => pat.isPrefixOf []
  | c :: rest => pat.isPrefixOf (c :: rest) || subSearch pat rest

/-- JavaScript `s.includes(pat)`. -/
def strIncludes (s pat : String) : Bool := subSearch pat.data s.data

/-- JavaScript `s.startsWith(pre)`. -/
def strStartsWith (s pre : String) : Bool := pre.data.isPrefixOf s.data

/-- JavaScript `s.substring(0, n)` (character based). -/
def strTake (s : String) (n : Nat) : String := ⟨s.data.take n⟩

/-- JavaScript `o || d` for an optional string: `undefined` and `""` are both
falsy and select the default. -/
def jsOr (o : Option String) (d : String) : String :=
  match o with
  | some s => if s = "" then d else s
  | none => d

/-- JavaScript template interpolation of a possibly-undefined string. -/
def optStr (o : Option String) : String := o.getD "undefined"

/-- Abstraction of JavaScript number-to-string conversion inside log text. -/
def numStr (q : ℚ) : String := toString q

/-! ## ProposalJudge (src/core/evolution/EvolutionDaemon.js, second section)

`ProposalJudge.evaluate` asks the LLM to score a proposal, parses the reply
defensively (`_parseEvaluation`) and then applies two hard policy overrides. -/

/-- Verdict of an evaluation.  In the source this is a string constrained to
one of the three values below (anything else is coerced to NEEDS_REVIEW during
parsing). -/
inductive Verdict where
  | APPROVED
  | REJECTED
  | NEEDS_REVIEW
deriving DecidableEq, Repr

/-- The four axis scores of an evaluation. -/
structure Scores where
  relevance : ℚ
  value : ℚ
  safety : ℚ
  feasibility : ℚ
deriving DecidableEq, Repr

/-- The four per-axis reason strings. -/
structure Reasons where
  relevance : String
  value : String
  safety : String
  feasibility : String
deriving DecidableEq, Repr

/-- Result of `ProposalJudge.evaluate` / `_parseEvaluation`. -/
structure Evaluation where
  verdict : Verdict
  scores : Scores
  reasons : Reasons
  summary : String
  avgScore : ℚ
deriving DecidableEq, Repr

/-- One axis of the parsed Oracle JSON: `{ "score": ..., "reason": ... }`,
each field possibly missing.  `score` here carries the finite JS numeric
coercion of the field; this ℚ-valued view covers exactly the inputs on which
the override comparisons of `evaluate` can fire.  The full JS number domain
of the score fields — including NaN from non-numeric values — is modelled
separately by `ParsedScoresJ` and `ProposalJudge.parseScoresJ` below. -/
structure AxisParse where
  score : Option ℚ
  reason : Option String
deriving DecidableEq, Repr

/-- JS number domain of a parsed score field: a finite value, a signed
infinity, or NaN.  `.num q` stands for any JSON value whose JS numeric
coercion (as performed by `Math.min`/`Math.max`) is the finite value `q`,
`.nan` for values coercing to NaN (e.g. the string "high"). -/
inductive JNum where
  | num (q : ℚ)
  | posInf
  | negInf
  | nan
deriving DecidableEq, Repr

/-- JS `Math.min` on two JS numbers: NaN absorbs. -/
def jsMin : JNum → JNum → JNum
  | .nan, _ => .nan
  | _, .nan => .nan
  | .negInf, _ => .negInf
  | _, .negInf => .negInf
  | .posInf, b => b
  | a, .posInf => a
  | .num a, .num b => .num (min a b)

/-- JS `Math.max` on two JS numbers: NaN absorbs. -/
def jsMax : JNum → JNum → JNum
  | .nan, _ => .nan
  | _, .nan => .nan
  | .posInf, _ => .posInf
  | _, .posInf => .posInf
  | .negInf, b => b
  | a, .negInf => a
  | .num a, .num b => .num (max a b)

/-- JS addition on JS numbers: NaN absorbs, opposite infinities give NaN. -/
def jsAdd : JNum → JNum → JNum
  | .num a, .num b => .num (a + b)
  | .nan, _ => .nan
  | _, .nan => .nan
  | .posInf, .negInf => .nan
  | .negInf, .posInf => .nan
  | .posInf, _ => .posInf
  | _, .posInf => .posInf
  | .negInf, _ => .negInf
  | _, .negInf => .negInf

/-- JS division by the literal 4. -/
def jsDiv4 : JNum → JNum
  | .num a => .num (a / 4)
  | x => x

/-- The clamp `Math.max(0, Math.min(10, x))` over JS numbers.  NaN passes
through both `Math.min` and `Math.max` unclamped. -/
def jsClamp10 (x : JNum) : JNum := jsMax (.num 0) (jsMin (.num 10) x)

/-- JS `parsed.axis?.score ?? 0` on the JS-number view: a missing or null
field defaults to 0, any present value keeps its numeric coercion. -/
def jScoreOf : Option JNum → JNum
  | none => .num 0
  | some v => v

/-- The four score fields of the extracted JSON object in the full JS number
domain: `none` models a missing/null `score` (or missing axis object),
`some v` a present value with numeric coercion `v`. -/
structure ParsedScoresJ where
  relevance : Option JNum
  value : Option JNum
  safety : Option JNum
  feasibility : Option JNum
deriving DecidableEq, Repr

/-- The produced scores of an evaluation in the JS number domain. -/
structure ScoresJ where
  relevance : JNum
  value : JNum
  safety : JNum
  feasibility : JNum
  avgScore : JNum
deriving DecidableEq, Repr

/-- NaN-aware model of the score extraction and clamping of
`ProposalJudge._parseEvaluation`: each score is
`Math.max(0, Math.min(10, parsed.axis?.score ?? 0))` and `avgScore` is
`(relevance + value + safety + feasibility) / 4`, all in JS arithmetic.
`none` is the JSON-parse-failure branch (all scores and the average 0). -/
def ProposalJudge.parseScoresJ : Option ParsedScoresJ → ScoresJ
  | none => ⟨.num 0, .num 0, .num 0, .num 0, .num 0⟩
  | some p =>
      { relevance := jsClamp10 (jScoreOf p.relevance)
        value := jsClamp10 (jScoreOf p.value)
        safety := jsClamp10 (jScoreOf p.safety)
        feasibility := jsClamp10 (jScoreOf p.feasibility)
        avgScore := jsDiv4 (jsAdd (jsAdd (jsAdd (jsClamp10 (jScoreOf p.relevance))
          (jsClamp10 (jScoreOf p.value))) (jsClamp10 (jScoreOf p.safety)))
          (jsClamp10 (jScoreOf p.feasibility))) }

/-- A JS number that is a finite value within [0, 10]. -/
def JNum.inRange10 : JNum → Prop
  | .num q => 0 ≤ q ∧ q ≤ 10
  | _ => False

/-- No present score field of the extracted JSON coerces to NaN. -/
def NoNanScores : Option ParsedScoresJ → Prop
  | none => True
  | some p => p.relevance ≠ some .nan ∧ p.value ≠ some .nan ∧
      p.safety ≠ some .nan ∧ p.feasibility ≠ some .nan

/-- The JSON object extracted from the Oracle reply, before any clamping or
defaulting; every field may be missing (JS `undefined`). -/
structure ParsedEval where
  relevance : Option AxisParse
  value : Option AxisParse
  safety : Option AxisParse
  feasibility : Option AxisParse
  summary : Option String
  verdict : Option String
deriving DecidableEq, Repr

/-- Configuration of the judge: `approvalThreshold` (default 7) and
`safetyMinimum` (default 8). -/
structure JudgeConfig where
  approvalThreshold : ℚ
  safetyMinimum : ℚ
deriving DecidableEq, Repr

/-- Clamp a score to [0, 10]: `Math.max(0, Math.min(10, x))`. -/
def clamp10 (x : ℚ) : ℚ := max 0 (min 10 x)

/-- JS `parsed.axis?.score ?? 0`. -/
def axisScore (a : Option AxisParse) : ℚ := (a.bind AxisParse.score).getD 0

/-- JS `parsed.axis?.reason || ''`. -/
def axisReason (a : Option AxisParse) : String := jsOr (a.bind AxisParse.reason) ""

/-- `ProposalJudge._parseEvaluation`.  `p?` is the result of JSON extraction
of the raw response text `raw` (`none` when `JSON.parse` threw). -/
def ProposalJudge.parseEvaluation (raw : String) (p? : Option ParsedEval) : Evaluation :=
  match p? with
  | none =>
      { verdict := .REJECTED
        scores := ⟨0, 0, 0, 0⟩
        reasons := ⟨"", "", "", ""⟩
        summary := "Parse error: " ++ strTake raw 100
        avgScore := 0 }
  | some parsed =>
      let scores : Scores :=
        ⟨clamp10 (axisScore parsed.relevance), clamp10 (axisScore parsed.value),
         clamp10 (axisScore parsed.safety), clamp10 (axisScore parsed.feasibility)⟩
      let reasons : Reasons :=
        ⟨axisReason parsed.relevance, axisReason parsed.value,
         axisReason parsed.safety, axisReason parsed.feasibility⟩
      let avgScore := (scores.relevance + scores.value + scores.safety + scores.feasibility) / 4
      let verdict : Verdict :=
        if parsed.verdict = some "APPROVED" then .APPROVED
        else if parsed.verdict = some "REJECTED" then .REJECTED
        else .NEEDS_REVIEW
      { verdict := verdict, scores := scores, reasons := reasons
        summary := jsOr parsed.summary "No summary provided.", avgScore := avgScore }

/-- The two hard policy overrides applied by `ProposalJudge.evaluate` after
parsing (safety gate, then threshold gate). -/
def ProposalJudge.applyOverrides (cfg : JudgeConfig) (e : Evaluation) : Evaluation :=
  if e.scores.safety < cfg.safetyMinimum then
    { e with
        verdict := .REJECTED
        summary := "[SAFETY BLOCK] Safety score " ++ numStr e.scores.safety ++
          "/10 below minimum " ++ numStr cfg.safetyMinimum ++ ". " ++ e.summary }
  else if e.avgScore < cfg.approvalThreshold then
    if e.verdict = .APPROVED then
      { e with
          verdict := .NEEDS_REVIEW
          summary := "[THRESHOLD] Average score " ++ numStr e.avgScore ++
            " below " ++ numStr cfg.approvalThreshold ++ ". " ++ e.summary }
    else e
  else e

/-- `ProposalJudge.evaluate`.  The argument is the Oracle interaction:
`Except.error msg` models `llm.chat` throwing (the catch block fails closed),
`Except.ok (raw, p?)` models a reply `raw` whose JSON extraction gave `p?`. -/
def ProposalJudge.evaluate (cfg : JudgeConfig)
    (resp : Except String (String × Option ParsedEval)) : Evaluation :=
  match resp with
  | .error msg =>
      { verdict := .REJECTED
        scores := ⟨0, 0, 0, 0⟩
        reasons := ⟨"", "", "", ""⟩
        summary := "Evaluation error: " ++ msg
        avgScore := 0 }
  | .ok (raw, p?) => ProposalJudge.applyOverrides cfg (ProposalJudge.parseEvaluation raw p?)

/-! ## CodePlanner (src/core/evolution/CodePlanner.js)

`CodePlanner.plan` parses the Oracle's plan JSON and runs `_validatePlan`,
the invariant check-list: change-count bound, allow/deny path prefixes,
dangerous-content regex scan, non-empty content for creates. -/

/-- Token of one of the scanned regular expressions: a literal run, `\s*`,
`\s+`, `.*` (which does not cross line terminators), or a character class. -/
inductive RTok where
  | lit (s : String)
  | wsStar
  | wsPlus
  | dotStar
  | cls (cs : List Char)
deriving DecidableEq, Repr

/-- Continuation search for `.*`: try the continuation `k` at every position
up to the end of the current line (JS `.` does not cross line terminators). -/
def dotSeekAux (k : List Char → Bool) : List Char → Bool
  | [] => k []
  | c :: rest => k (c :: rest) || (!(c == '\n' || c == '\r') && dotSeekAux k rest)

/-- Match a token list starting exactly at the head of the subject. -/
def tokMatch : List RTok → List Char → Bool
  | [] => fun _ => true
  | .lit s :: ts => fun cs => s.data.isPrefixOf cs && tokMatch ts (cs.drop s.data.length)
  | .wsStar :: ts => fun cs => tokMatch ts (cs.dropWhile jsWs)
  | .wsPlus :: ts => fun cs =>
      match cs with
      | c :: rest => jsWs c && tokMatch ts (rest.dropWhile jsWs)
      | [] => false
  | .cls opts :: ts => fun cs =>
      match cs with
      | c :: rest => opts.contains c && tokMatch ts rest
      | [] => false
  | .dotStar :: ts => fun cs => dotSeekAux (tokMatch ts) cs

/-- JS `RegExp.test`: the pattern may match at any position of the subject. -/
def regexSearch (ts : List RTok) : List Char → Bool
  | [] => tokMatch ts []
  | c :: rest => tokMatch ts (c :: rest) || regexSearch ts rest

/-- One dangerous pattern: its `source` text (used in the error message) and
its token form. -/
structure DPattern where
  source : String
  toks : List RTok
deriving DecidableEq, Repr

/-- JS `pattern.test(content)`. -/
def DPattern.test (d : DPattern) (s : String) : Bool := regexSearch d.toks s.data

/-- The dangerous-content patterns of `CodePlanner._validatePlan`, in source
order. -/
def dangerousPatterns : List DPattern :=
  [⟨"process\\.exit", [.lit "process.exit"]⟩,
   ⟨"child_process", [.lit "child_process"]⟩,
   ⟨"eval\\s*\\(", [.lit "eval", .wsStar, .lit "("]⟩,
   ⟨"Function\\s*\\(", [.lit "Function", .wsStar, .lit "("]⟩,
   ⟨"require\\s*\\(\\s*['\"`]child",
    [.lit "require", .wsStar, .lit "(", .wsStar,
     .cls [Char.ofNat 39, Char.ofNat 34, Char.ofNat 96], .lit "child"]⟩,
   ⟨"exec\\s*\\(", [.lit "exec", .wsStar, .lit "("]⟩,
   ⟨"execSync", [.lit "execSync"]⟩,
   ⟨"spawn\\s*\\(", [.lit "spawn", .wsStar, .lit "("]⟩,
   ⟨"rm\\s+-rf", [.lit "rm", .wsPlus, .lit "-rf"]⟩,
   ⟨"unlink.*\\/", [.lit "unlink", .dotStar, .lit "/"]⟩]

/-- One entry of a plan's `changes` array; every field may be missing in the
untrusted Oracle JSON. -/
structure FileChange where
  action : Option String
  filePath : Option String
  description : Option String
  content : Option String
deriving DecidableEq, Repr

/-- A parsed plan.  Only the fields the validator and writer consult are
modelled with structure; `changes = none` models a missing/non-array field. -/
structure Plan where
  summary : Option String
  rationale : Option String
  estimatedComplexity : Option String
  changes : Option (List FileChange)
deriving DecidableEq, Repr

/-- Path policy shared by CodePlanner and CodeWriter. -/
structure PlannerConfig where
  allowedPaths : List String
  forbiddenPaths : List String
deriving DecidableEq, Repr

/-- Default allow-prefixes (`core/`, `pipelines/`, `sdk.js`, `types.d.ts`). -/
def defaultAllowedPaths : List String := ["core/", "pipelines/", "sdk.js", "types.d.ts"]

/-- Default deny-prefixes (note `core/evolution/`: no self-modification). -/
def defaultForbiddenPaths : List String :=
  [".env", ".git/", "node_modules/", "package-lock.json", "core/evolution/"]

/-- JS truthiness of an optional string (`undefined` and `""` are falsy). -/
def truthy (o : Option String) : Bool :=
  match o with
  | some s => s != ""
  | none => false

/-- Errors contributed by a single change inside `_validatePlan`'s loop, in
push order: deny-prefix matches, allow-list miss, dangerous-pattern hits,
empty-content create. -/
def CodePlanner.changeErrors (cfg : PlannerConfig) (c : FileChange) : List String :=
  (cfg.forbiddenPaths.filterMap fun forbidden =>
    if truthy c.filePath && strStartsWith (c.filePath.getD "") forbidden then
      some ("Forbidden path: " ++ optStr c.filePath ++ " (matches " ++ forbidden ++ ")")
    else none) ++
  (if !(cfg.allowedPaths.any fun allowed =>
        truthy c.filePath && strStartsWith (c.filePath.getD "") allowed) &&
      truthy c.filePath then
    ["Path not in allowlist: " ++ optStr c.filePath]
  else []) ++
  (if truthy c.content then
    dangerousPatterns.filterMap fun d =>
      if d.test (c.content.getD "") then
        some ("Dangerous pattern detected in " ++ optStr c.filePath ++ ": " ++ d.source)
      else none
  else []) ++
  (if c.action == some "create" && (c.content.getD "").data.all jsWs then
    ["Create action for " ++ optStr c.filePath ++ " has no content"]
  else [])

/-- `CodePlanner._validatePlan`. -/
def CodePlanner.validatePlan (cfg : PlannerConfig) (plan : Option Plan) : List String :=
  match plan with
  | none => ["Plan has no changes array"]
  | some pl =>
      match pl.changes with
      | none => ["Plan has no changes array"]
      | some l =>
          if l.length = 0 then ["Plan has zero changes"]
          else
            (if 10 < l.length then
               ["Too many changes (" ++ toString l.length ++ "). Maximum is 10 per proposal."]
             else []) ++
            l.flatMap (CodePlanner.changeErrors cfg)

/-- Result of `CodePlanner.plan`. -/
structure PlanResult where
  plan : Option Plan
  valid : Bool
  errors : List String
deriving DecidableEq, Repr

/-- `CodePlanner.plan` after a successful Oracle call: validate the parsed
plan object and report validity.  (`_parsePlan` always yields a plan object —
on JSON failure a stub with an empty changes list — so `plan` is `some`
here; an Oracle transport failure instead yields
`⟨none, false, [planning-failed message]⟩` directly.) -/
def CodePlanner.planResult (cfg : PlannerConfig) (parsedPlan : Plan) : PlanResult :=
  ⟨some parsedPlan, (CodePlanner.validatePlan cfg (some parsedPlan)).isEmpty,
   CodePlanner.validatePlan cfg (some parsedPlan)⟩

/-! ## CodeWriter (src/unnamed/part_002)

`CodeWriter.apply` writes a plan's changes to disk with path re-validation
and backup-before-overwrite; `CodeWriter.rollback` walks the applied changes
in reverse.  The disk is modelled as an association list from absolute path
strings to contents. -/

/-- The file system: newest binding first. -/
abbrev FS := List (String × String)

/-- Content of the file at `p`, `none` when absent. -/
def fsRead : FS → String → Option String
  | [], _ => none
  | e :: rest, p => if e.1 = p then some e.2 else fsRead rest p

/-- Remove every binding of `p`. -/
def fsErase : FS → String → FS
  | [], _ => []
  | e :: rest, p => if e.1 = p then fsErase rest p else e :: fsErase rest p

/-- `fs.writeFileSync`: (over)write the file at `p`. -/
def fsWrite (fs : FS) (p c : String) : FS := (p, c) :: fsErase fs p

/-- `fs.unlinkSync`: remove the file at `p`. -/
def fsDelete (fs : FS) (p : String) : FS := fsErase fs p

/-- `fs.existsSync`. -/
def fsExists (fs : FS) (p : String) : Bool := (fsRead fs p).isSome

/-- `path.join` on the (already validated, `..`-free) path pairs this
pipeline produces. -/
def pathJoin (a b : String) : String := a ++ "/" ++ b

/-- Configuration of `CodeWriter`. -/
structure WriterConfig where
  projectRoot : String
  backupDir : String
  maxFileSize : Nat
  allowedPaths : List String
  forbiddenPaths : List String
deriving DecidableEq, Repr

/-- `CodeWriter._validatePath`: `some err` when invalid, `none` when ok.
Order of checks from the source: falsy path, `..` traversal, deny-prefixes,
allow-prefixes. -/
def CodeWriter.validatePath (cfg : WriterConfig) (fp : Option String) : Option String :=
  match fp with
  | none => some "Empty file path"
  | some p =>
      if p = "" then some "Empty file path"
      else if strIncludes p ".." then some ("Path traversal detected: " ++ p)
      else
        match cfg.forbiddenPaths.find? (fun forbidden => strStartsWith p forbidden) with
        | some _ => some ("Forbidden path: " ++ p)
        | none =>
            if cfg.allowedPaths.any (fun allowed => strStartsWith p allowed) then none
            else some ("Path not in allowlist: " ++ p)

/-- A record of one applied change, as kept in `_appliedChanges`. -/
structure ChangeRecord where
  action : String
  filePath : String
  backupDir : String
deriving DecidableEq, Repr

/-- The backup-before-overwrite step shared by the modify and create
branches of the loop: copy the existing file (if any) into the per-run
backup directory. -/
def CodeWriter.backupIfExists (cfg : WriterConfig) (runDir : String) (fs : FS)
    (p : String) : FS :=
  if fsExists fs (pathJoin cfg.projectRoot p) then
    fsWrite fs (pathJoin runDir p) ((fsRead fs (pathJoin cfg.projectRoot p)).getD "")
  else fs

/-- One iteration of the loop in `CodeWriter.apply`: returns the new file
system plus the change records and errors this change contributes (at most
one each).  `writeFileSync` with undefined content throws; the catch block
records the per-change failure (after any backup already happened). -/
def CodeWriter.applyChange (cfg : WriterConfig) (runDir : String) (fs : FS)
    (c : FileChange) : FS × List ChangeRecord × List String :=
  match CodeWriter.validatePath cfg c.filePath with
  | some err => (fs, [], [err])
  | none =>
      if truthy c.content && cfg.maxFileSize < (c.content.getD "").utf8ByteSize then
        (fs, [], ["File " ++ c.filePath.getD "" ++ " exceeds max size (" ++
          toString cfg.maxFileSize ++ " bytes)"])
      else if c.action == some "modify" then
        match c.content with
        | some s =>
            (fsWrite (CodeWriter.backupIfExists cfg runDir fs (c.filePath.getD ""))
               (pathJoin cfg.projectRoot (c.filePath.getD "")) s,
             [⟨"modify", c.filePath.getD "", runDir⟩], [])
        | none =>
            (CodeWriter.backupIfExists cfg runDir fs (c.filePath.getD ""), [],
             ["Failed to apply " ++ c.filePath.getD "" ++ ": content must be a string"])
      else if c.action == some "create" then
        match c.content with
        | some s =>
            (fsWrite (CodeWriter.backupIfExists cfg runDir fs (c.filePath.getD ""))
               (pathJoin cfg.projectRoot (c.filePath.getD "")) s,
             [⟨"create", c.filePath.getD "", runDir⟩], [])
        | none =>
            (CodeWriter.backupIfExists cfg runDir fs (c.filePath.getD ""), [],
             ["Failed to apply " ++ c.filePath.getD "" ++ ": content must be a string"])
      else (fs, [], ["Unknown action \x22" ++ optStr c.action ++ "\x22 for " ++ c.filePath.getD ""])

/-- The whole loop of `CodeWriter.apply` over a changes list. -/
def CodeWriter.applyList (cfg : WriterConfig) (runDir : String) (fs : FS) :
    List FileChange → FS × List ChangeRecord × List String
  | [] => (fs, [], [])
  | c :: cs =>
      ((CodeWriter.applyList cfg runDir (CodeWriter.applyChange cfg runDir fs c).1 cs).1,
       (CodeWriter.applyChange cfg runDir fs c).2.1 ++
         (CodeWriter.applyList cfg runDir (CodeWriter.applyChange cfg runDir fs c).1 cs).2.1,
       (CodeWriter.applyChange cfg runDir fs c).2.2 ++
         (CodeWriter.applyList cfg runDir (CodeWriter.applyChange cfg runDir fs c).1 cs).2.2)

/-- Mutable state of a `CodeWriter` instance: the disk and `_appliedChanges`. -/
structure WriterState where
  fs : FS
  appliedChanges : List ChangeRecord
deriving DecidableEq, Repr

/-- Return value of `CodeWriter.apply`. -/
structure ApplyResult where
  success : Bool
  applied : List ChangeRecord
  errors : List String
deriving DecidableEq, Repr

/-- `CodeWriter.apply`: guard an empty plan, reset `_appliedChanges`, apply
every change, succeed only when there were no errors and at least one change
was applied. -/
def CodeWriter.apply (cfg : WriterConfig) (runDir : String) (st : WriterState)
    (plan : Option Plan) : WriterState × ApplyResult :=
  match plan with
  | none => (st, ⟨false, [], ["No changes in plan"]⟩)
  | some pl =>
      match pl.changes with
      | none => (st, ⟨false, [], ["No changes in plan"]⟩)
      | some [] => (st, ⟨false, [], ["No changes in plan"]⟩)
      | some l =>
          let r := CodeWriter.applyList cfg runDir st.fs l
          (⟨r.1, r.2.1⟩, ⟨r.2.2.isEmpty && !r.2.1.isEmpty, r.2.1, r.2.2⟩)

/-- One iteration of the loop in `CodeWriter.rollback`: delete a created
file, restore a modified file from its backup. -/
def CodeWriter.rollbackChange (cfg : WriterConfig) (fs : FS) (r : ChangeRecord) :
    FS × Nat × List String :=
  if r.action == "create" then
    if fsExists fs (pathJoin cfg.projectRoot r.filePath) then
      (fsDelete fs (pathJoin cfg.projectRoot r.filePath), 1, [])
    else (fs, 0, [])
  else if r.action == "modify" then
    match fsRead fs (pathJoin r.backupDir r.filePath) with
    | some content => (fsWrite fs (pathJoin cfg.projectRoot r.filePath) content, 1, [])
    | none => (fs, 0, ["No backup found for " ++ r.filePath])
  else (fs, 0, [])

/-- The whole loop of `CodeWriter.rollback` over a record list. -/
def CodeWriter.rollbackList (cfg : WriterConfig) (fs : FS) :
    List ChangeRecord → FS × Nat × List String
  | [] => (fs, 0, [])
  | r :: rs =>
      ((CodeWriter.rollbackList cfg (CodeWriter.rollbackChange cfg fs r).1 rs).1,
       (CodeWriter.rollbackChange cfg fs r).2.1 +
         (CodeWriter.rollbackList cfg (CodeWriter.rollbackChange cfg fs r).1 rs).2.1,
       (CodeWriter.rollbackChange cfg fs r).2.2 ++
         (CodeWriter.rollbackList cfg (CodeWriter.rollbackChange cfg fs r).1 rs).2.2)

/-- Return value of `CodeWriter.rollback`. -/
structure RollbackResult where
  success : Bool
  rolled : Nat
  errors : List String
deriving DecidableEq, Repr

/-- `CodeWriter.rollback`: walk `_appliedChanges` in reverse, then clear it. -/
def CodeWriter.rollback (cfg : WriterConfig) (st : WriterState) :
    WriterState × RollbackResult :=
  let r := CodeWriter.rollbackList cfg st.fs st.appliedChanges.reverse
  (⟨r.1, []⟩, ⟨r.2.2.isEmpty, r.2.1, r.2.2⟩)

/-- Absolute project path targeted by a change. -/
def absOf (cfg : WriterConfig) (c : FileChange) : String :=
  pathJoin cfg.projectRoot (c.filePath.getD "")

/-- Backup path of a change under the per-run backup directory. -/
def bpOf (runDir : String) (c : FileChange) : String :=
  pathJoin runDir (c.filePath.getD "")

/-- Hypotheses under which one `apply` run round-trips: every change is a
create/modify with a validated path and in-bounds defined content, file paths
are pairwise distinct, every modify targets a file that exists before the
run, and the per-run backup directory is fresh (no pre-existing file at any
backup path) and disjoint from the targeted project paths. -/
def GoodRun (cfg : WriterConfig) (runDir : String) (fs : FS) (l : List FileChange) : Prop :=
  (∀ c ∈ l, (c.action = some "modify" ∨ c.action = some "create") ∧
      CodeWriter.validatePath cfg c.filePath = none ∧
      c.content ≠ none ∧ (c.content.getD "").utf8ByteSize ≤ cfg.maxFileSize) ∧
  (l.map fun c => c.filePath.getD "").Nodup ∧
  (∀ c ∈ l, c.action = some "modify" → fsExists fs (absOf cfg c) = true) ∧
  (∀ c ∈ l, fsRead fs (bpOf runDir c) = none) ∧
  (∀ c ∈ l, ∀ c' ∈ l, bpOf runDir c ≠ absOf cfg c')

/-! ## EvolutionDaemon (src/core/evolution/EvolutionDaemon.js, first section) -/

/-- Result of `_processProposal` for one proposal: the `markProcessed`
outcome tag, the writer state afterwards, whether the run reached a
successful commit (the only case that increments the daily counter), and
which writer operations were invoked. -/
structure ProcResult where
  outcome : String
  wst : WriterState
  committed : Bool
  applyInvoked : Bool
  rollbackInvoked : Bool
deriving DecidableEq, Repr

/-- Per-proposal pipeline input consumed by `_processProposal`:
`stillRunning` is the `_running` flag sampled at this loop iteration,
`runDir` the per-run backup directory (`run-<timestamp>`), `ev` the judge's
evaluation, `pr` the planner's result, and `validationPassed`,
`commitSuccess`, `prUrl` abstract the Validator and GitCommitter stages. -/
structure PInput where
  stillRunning : Bool
  runDir : String
  ev : Evaluation
  pr : PlanResult
  validationPassed : Bool
  commitSuccess : Bool
  prUrl : Option String
deriving DecidableEq, Repr

/-- `EvolutionDaemon._processProposal`. -/
def EvolutionDaemon.processProposal (cfg : WriterConfig) (wst : WriterState)
    (i : PInput) : ProcResult :=
  if i.ev.verdict = .REJECTED then ⟨"rejected", wst, false, false, false⟩
  else if i.ev.verdict = .NEEDS_REVIEW then ⟨"needs_review", wst, false, false, false⟩
  else if !i.pr.valid || i.pr.plan.isNone then ⟨"plan_failed", wst, false, false, false⟩
  else if !(CodeWriter.apply cfg i.runDir wst i.pr.plan).2.success &&
      (CodeWriter.apply cfg i.runDir wst i.pr.plan).2.applied.isEmpty then
    ⟨"write_failed", (CodeWriter.apply cfg i.runDir wst i.pr.plan).1, false, true, false⟩
  else if !i.validationPassed then
    ⟨"validation_failed",
     (CodeWriter.rollback cfg (CodeWriter.apply cfg i.runDir wst i.pr.plan).1).1,
     false, true, true⟩
  else if !i.commitSuccess then
    ⟨"commit_failed",
     (CodeWriter.rollback cfg (CodeWriter.apply cfg i.runDir wst i.pr.plan).1).1,
     false, true, true⟩
  else ⟨if i.prUrl.isSome then "pr_created" else "committed",
    (CodeWriter.apply cfg i.runDir wst i.pr.plan).1, true, true, false⟩

/-- Daily bookkeeping: the daemon's `_dailyCount`, a ghost count of
proposals that reached a successful commit since midnight, and the shared
writer state. -/
structure DayState where
  dailyCount : Nat
  commits : Nat
  wst : WriterState
deriving DecidableEq, Repr

/-- One processed proposal inside a cycle (after the loop guards passed). -/
def EvolutionDaemon.procStep (cfg : WriterConfig) (st : DayState) (i : PInput) : DayState :=
  if (EvolutionDaemon.processProposal cfg st.wst i).committed then
    ⟨st.dailyCount + 1, st.commits + 1, (EvolutionDaemon.processProposal cfg st.wst i).wst⟩
  else ⟨st.dailyCount, st.commits, (EvolutionDaemon.processProposal cfg st.wst i).wst⟩

/-- The proposal loop of `_cycle`: before every proposal re-check the daily
cap and the running flag, `break` when either fails. -/
def EvolutionDaemon.runBatch (cfg : WriterConfig) (maxPerDay : Nat) (st : DayState) :
    List PInput → DayState
  | [] => st
  | i :: is =>
      if maxPerDay ≤ st.dailyCount then st
      else if !i.stillRunning then st
      else EvolutionDaemon.runBatch cfg maxPerDay (EvolutionDaemon.procStep cfg st i) is

/-- `EvolutionDaemon._cycle`: skip the whole cycle at the cap, otherwise
process the collected batch strictly sequentially. -/
def EvolutionDaemon.cycle (cfg : WriterConfig) (maxPerDay : Nat) (st : DayState)
    (batch : List PInput) : DayState :=
  if maxPerDay ≤ st.dailyCount then st
  else EvolutionDaemon.runBatch cfg maxPerDay st batch

/-- One calendar day: the counter starts at 0 (midnight reset) and each timer
tick contributes one cycle. -/
def EvolutionDaemon.runDay (cfg : WriterConfig) (maxPerDay : Nat) (wst : WriterState)
    (cycles : List (List PInput)) : DayState :=
  cycles.foldl (fun st batch => EvolutionDaemon.cycle cfg maxPerDay st batch) ⟨0, 0, wst⟩

/-! ## InboxCollector (src/unnamed/part_003, first section) -/

/-- The `raw` payload attached to a proposal collected from the issue
source: `{ number, url, labels }`. -/
structure IssueRaw where
  number : Nat
  url : String
  labels : List String
deriving DecidableEq, Repr

/-- A normalized proposal.  Only the issue-source `raw` shape is modelled
with structure; locally submitted proposals carry `raw = none`. -/
structure Proposal where
  id : String
  source : String
  author : String
  title : String
  body : String
  timestamp : String
  raw : Option IssueRaw
deriving DecidableEq, Repr

/-- A label object of the issue API (`{ name }`). -/
structure Label where
  name : String
deriving DecidableEq, Repr

/-- An issue from the issue-source API response (the consumed fields). -/
structure Issue where
  number : Nat
  userLogin : Option String
  title : String
  body : Option String
  created_at : String
  html_url : String
  labels : List Label
deriving DecidableEq, Repr

/-- The per-issue mapping inside `InboxCollector._fetchGitHubIssues`. -/
def InboxCollector.mapIssue (issue : Issue) : Proposal :=
  { id := "gh-issue-" ++ toString issue.number
    source := "github-issue"
    author := jsOr issue.userLogin "unknown"
    title := issue.title
    body := jsOr issue.body ""
    timestamp := issue.created_at
    raw := some ⟨issue.number, issue.html_url, issue.labels.map Label.name⟩ }

/-- `InboxCollector.collect`, given the gathered proposals (issue source
first, then the local file, as pushed by the source), the processed-id key
set, the clock `now` and the config.  `getTime` abstracts
`new Date(s).getTime()`. -/
def InboxCollector.collect (processedIds : List String) (getTime : String → Int)
    (now maxAge : Int) (maxPerCycle : Nat) (proposals : List Proposal) : List Proposal :=
  ((proposals.filter fun p => !(processedIds.contains p.id)).filter
      fun p => now - maxAge < getTime p.timestamp).take maxPerCycle

/-- `InboxCollector.markProcessed` restricted to the processed-id key set. -/
def InboxCollector.markProcessed (processedIds : List String) (pid : String) : List String :=
  pid :: processedIds

/-- Insertion step of a newest-first sort by timestamp. -/
def insertByTimeDesc (getTime : String → Int) (p : Proposal) :
    List Proposal → List Proposal
  | [] => [p]
  | q :: rest =>
      if getTime q.timestamp ≤ getTime p.timestamp then p :: q :: rest
      else q :: insertByTimeDesc getTime p rest

/-- Newest-first insertion sort by timestamp. -/
def sortByTimeDesc (getTime : String → Int) : List Proposal → List Proposal
  | [] => []
  | p :: rest => insertByTimeDesc getTime p (sortByTimeDesc getTime rest)

/-- Modelled from the spec: `collect()` as §4.1 words it — filter processed
ids, filter stale entries, **sort newest-first**, truncate to `maxPerCycle`.
The sort step exists only in the spec; the source `collect()` never sorts. -/
def InboxCollector.collectSpec (processedIds : List String) (getTime : String → Int)
    (now maxAge : Int) (maxPerCycle : Nat) (proposals : List Proposal) : List Proposal :=
  (sortByTimeDesc getTime
      ((proposals.filter fun p => !(processedIds.contains p.id)).filter
        fun p => now - maxAge < getTime p.timestamp)).take maxPerCycle

/-- Claim C2's invariant-violation notion for a changes list, literally as
worded: more than 10 changes; a change whose filePath starts with no
allow-prefix, or starts with a deny-prefix; content matching a dangerous
pattern; a create action with empty content. -/
def ViolatesLit (cfg : PlannerConfig) (l : List FileChange) : Prop :=
  10 < l.length ∨
  ∃ c ∈ l,
    (∃ p, c.filePath = some p ∧
      ((∀ a ∈ cfg.allowedPaths, strStartsWith p a = false) ∨
       (∃ f ∈ cfg.forbiddenPaths, strStartsWith p f = true))) ∨
    (∃ s, c.content = some s ∧ ∃ d ∈ dangerousPatterns, d.test s = true) ∨
    (c.action = some "create" ∧ (c.content = none ∨ c.content = some ""))

/-- Claim C2's invariant-violation notion amended: the path clauses apply to
changes with a **non-empty** filePath (JS truthiness skips both path checks
for `""` and `undefined`). -/
def ViolatesInv (cfg : PlannerConfig) (l : List FileChange) : Prop :=
  10 < l.length ∨
  ∃ c ∈ l,
    (∃ p, c.filePath = some p ∧ p ≠ "" ∧
      ((∀ a ∈ cfg.allowedPaths, strStartsWith p a = false) ∨
       (∃ f ∈ cfg.forbiddenPaths, strStartsWith p f = true))) ∨
    (∃ s, c.content = some s ∧ ∃ d ∈ dangerousPatterns, d.test s = true) ∨
    (c.action = some "create" ∧ (c.content = none ∨ c.content = some ""))

/-! ## Claims C1, C5, C6 — the judge -/

/-- Helper: `evaluate` on a non-throwing Oracle interaction is
parse-then-override. -/
theorem ProposalJudge.evaluate_ok (cfg : JudgeConfig) (raw : String) (p? : Option ParsedEval) :
    ProposalJudge.evaluate cfg (.ok (raw, p?)) =
      ProposalJudge.applyOverrides cfg (ProposalJudge.parseEvaluation raw p?) := rfl

/-- C1: safety gate.  Whenever the parsed safety score is below
`safetyMinimum`, the evaluation returned by `ProposalJudge.evaluate` (on any
non-throwing Oracle interaction, whatever the raw verdict) is REJECTED and its
summary is prefixed with "[SAFETY BLOCK]". -/
theorem judge_safety_gate (cfg : JudgeConfig) (raw : String) (p? : Option ParsedEval)
    (h : (ProposalJudge.parseEvaluation raw p?).scores.safety < cfg.safetyMinimum) :
    (ProposalJudge.evaluate cfg (.ok (raw, p?))).verdict = .REJECTED ∧
    ∃ rest, (ProposalJudge.evaluate cfg (.ok (raw, p?))).summary = "[SAFETY BLOCK]" ++ rest := by
  rw [ProposalJudge.evaluate_ok]
  unfold ProposalJudge.applyOverrides
  rw [if_pos h]
  refine ⟨rfl, ⟨" Safety score " ++ (numStr (ProposalJudge.parseEvaluation raw p?).scores.safety ++
    ("/10 below minimum " ++ (numStr cfg.safetyMinimum ++ (". " ++
      (ProposalJudge.parseEvaluation raw p?).summary)))), ?_⟩⟩
  show "[SAFETY BLOCK] Safety score " ++ numStr (ProposalJudge.parseEvaluation raw p?).scores.safety ++
    "/10 below minimum " ++ numStr cfg.safetyMinimum ++ ". " ++
    (ProposalJudge.parseEvaluation raw p?).summary = _
  have hsplit : ("[SAFETY BLOCK] Safety score " : String) = "[SAFETY BLOCK]" ++ " Safety score " := by
    decide
  simp only [String.append_assoc]
  rw [hsplit, String.append_assoc]

/-- C1 witness: Scenario A.  Scores {relevance 9, value 9, safety 5,
feasibility 9} with safetyMinimum 8: the average is 8.0 yet the verdict is
forced to REJECTED with a "[SAFETY BLOCK]" summary prefix, even though the raw
verdict was APPROVED. -/
theorem judge_safety_gate_witness :
    ((ProposalJudge.parseEvaluation ""
        (some ⟨some ⟨some 9, none⟩, some ⟨some 9, none⟩, some ⟨some 5, none⟩,
               some ⟨some 9, none⟩, none, some "APPROVED"⟩)).scores.safety < (8 : ℚ) ∧
     (ProposalJudge.parseEvaluation ""
        (some ⟨some ⟨some 9, none⟩, some ⟨some 9, none⟩, some ⟨some 5, none⟩,
               some ⟨some 9, none⟩, none, some "APPROVED"⟩)).avgScore = 8 ∧
     (ProposalJudge.parseEvaluation ""
        (some ⟨some ⟨some 9, none⟩, some ⟨some 9, none⟩, some ⟨some 5, none⟩,
               some ⟨some 9, none⟩, none, some "APPROVED"⟩)).verdict = .APPROVED) ∧
    ((ProposalJudge.evaluate ⟨7, 8⟩ (.ok ("",
        some ⟨some ⟨some 9, none⟩, some ⟨some 9, none⟩, some ⟨some 5, none⟩,
               some ⟨some 9, none⟩, none, some "APPROVED"⟩))).verdict = .REJECTED ∧
     ∃ rest, (ProposalJudge.evaluate ⟨7, 8⟩ (.ok ("",
        some ⟨some ⟨some 9, none⟩, some ⟨some 9, none⟩, some ⟨some 5, none⟩,
               some ⟨some 9, none⟩, none, some "APPROVED"⟩))).summary = "[SAFETY BLOCK]" ++ rest) := by
  refine ⟨⟨by decide, ?_, by decide⟩, judge_safety_gate ⟨7, 8⟩ _ _ (by decide)⟩
  norm_num [ProposalJudge.parseEvaluation, clamp10, axisScore]

/-- C5: threshold gate.  If the parsed safety score passes `safetyMinimum`,
the average score is below `approvalThreshold`, and the raw (parsed) verdict
was APPROVED, then `ProposalJudge.evaluate` returns NEEDS_REVIEW. -/
theorem judge_threshold_gate (cfg : JudgeConfig) (raw : String) (p? : Option ParsedEval)
    (hsafe : ¬ (ProposalJudge.parseEvaluation raw p?).scores.safety < cfg.safetyMinimum)
    (havg : (ProposalJudge.parseEvaluation raw p?).avgScore < cfg.approvalThreshold)
    (hvr : (ProposalJudge.parseEvaluation raw p?).verdict = .APPROVED) :
    (ProposalJudge.evaluate cfg (.ok (raw, p?))).verdict = .NEEDS_REVIEW := by
  rw [ProposalJudge.evaluate_ok]
  unfold ProposalJudge.applyOverrides
  rw [if_neg hsafe, if_pos havg, if_pos hvr]

/-- C5 witness: scores {5, 5, 9, 5} under thresholds (7, 8): safety 9 ≥ 8,
average 6 < 7, raw verdict APPROVED, final verdict NEEDS_REVIEW. -/
theorem judge_threshold_gate_witness :
    (ProposalJudge.evaluate ⟨7, 8⟩ (.ok ("",
        some ⟨some ⟨some 5, none⟩, some ⟨some 5, none⟩, some ⟨some 9, none⟩,
               some ⟨some 5, none⟩, none, some "APPROVED"⟩))).verdict = .NEEDS_REVIEW := by
  refine judge_threshold_gate ⟨7, 8⟩ _ _ (by decide) ?_ (by decide)
  norm_num [ProposalJudge.parseEvaluation, clamp10, axisScore]

/-- Helper: on a finite score value the JS clamp agrees with the ℚ clamp
used by the override model. -/
theorem jsClamp10_num (q : ℚ) : jsClamp10 (.num q) = .num (clamp10 q) := rfl

/-- Helper: a score field that does not coerce to NaN clamps to a finite
number within [0, 10] (infinities saturate at the bounds, missing fields
default to 0). -/
theorem jsClamp10_inRange (x : Option JNum) (hx : x ≠ some .nan) :
    ∃ q : ℚ, jsClamp10 (jScoreOf x) = .num q ∧ 0 ≤ q ∧ q ≤ 10 := by
  match x with
  | none => exact ⟨0, rfl, le_refl 0, by norm_num⟩
  | some (.num a) =>
      exact ⟨clamp10 a, rfl, le_max_left 0 _, max_le (by norm_num) (min_le_left 10 a)⟩
  | some .posInf => exact ⟨10, rfl, by norm_num, le_refl 10⟩
  | some .negInf => exact ⟨0, rfl, le_refl 0, by norm_num⟩
  | some .nan => exact absurd rfl hx

/-- C6 (amended): for every Oracle response whose present score fields do
not coerce to NaN, the produced Evaluation has each of the four scores a
finite number within [0, 10] and `avgScore` equal to the arithmetic mean of
the four scores (this includes the JSON-parse-failure branch, where all are
0). -/
theorem judge_scores_clamped_no_nan (p? : Option ParsedScoresJ) (h : NoNanScores p?) :
    ∃ r v s f : ℚ,
      (ProposalJudge.parseScoresJ p?).relevance = .num r ∧ 0 ≤ r ∧ r ≤ 10 ∧
      (ProposalJudge.parseScoresJ p?).value = .num v ∧ 0 ≤ v ∧ v ≤ 10 ∧
      (ProposalJudge.parseScoresJ p?).safety = .num s ∧ 0 ≤ s ∧ s ≤ 10 ∧
      (ProposalJudge.parseScoresJ p?).feasibility = .num f ∧ 0 ≤ f ∧ f ≤ 10 ∧
      (ProposalJudge.parseScoresJ p?).avgScore = .num ((r + v + s + f) / 4) := by
  cases p? with
  | none =>
      refine ⟨0, 0, 0, 0, rfl, le_refl 0, by norm_num, rfl, le_refl 0, by norm_num,
        rfl, le_refl 0, by norm_num, rfl, le_refl 0, by norm_num, ?_⟩
      norm_num [ProposalJudge.parseScoresJ]
  | some p =>
      obtain ⟨hnr, hnv, hns, hnf⟩ := h
      obtain ⟨r, hr1, hr2, hr3⟩ := jsClamp10_inRange p.relevance hnr
      obtain ⟨v, hv1, hv2, hv3⟩ := jsClamp10_inRange p.value hnv
      obtain ⟨s, hs1, hs2, hs3⟩ := jsClamp10_inRange p.safety hns
      obtain ⟨f, hf1, hf2, hf3⟩ := jsClamp10_inRange p.feasibility hnf
      refine ⟨r, v, s, f, hr1, hr2, hr3, hv1, hv2, hv3, hs1, hs2, hs3, hf1, hf2, hf3, ?_⟩
      show jsDiv4 (jsAdd (jsAdd (jsAdd (jsClamp10 (jScoreOf p.relevance))
        (jsClamp10 (jScoreOf p.value))) (jsClamp10 (jScoreOf p.safety)))
        (jsClamp10 (jScoreOf p.feasibility))) = .num ((r + v + s + f) / 4)
      rw [hr1, hv1, hs1, hf1]
      rfl

/-- C6 witness: score fields 7, missing, +Infinity-coercing, 3: all four
produced scores land in [0, 10] with the exact mean. -/
theorem judge_scores_clamped_no_nan_witness :
    ∃ r v s f : ℚ,
      (ProposalJudge.parseScoresJ (some ⟨some (.num 7), none, some .posInf,
        some (.num 3)⟩)).relevance = .num r ∧ 0 ≤ r ∧ r ≤ 10 ∧
      (ProposalJudge.parseScoresJ (some ⟨some (.num 7), none, some .posInf,
        some (.num 3)⟩)).value = .num v ∧ 0 ≤ v ∧ v ≤ 10 ∧
      (ProposalJudge.parseScoresJ (some ⟨some (.num 7), none, some .posInf,
        some (.num 3)⟩)).safety = .num s ∧ 0 ≤ s ∧ s ≤ 10 ∧
      (ProposalJudge.parseScoresJ (some ⟨some (.num 7), none, some .posInf,
        some (.num 3)⟩)).feasibility = .num f ∧ 0 ≤ f ∧ f ≤ 10 ∧
      (ProposalJudge.parseScoresJ (some ⟨some (.num 7), none, some .posInf,
        some (.num 3)⟩)).avgScore = .num ((r + v + s + f) / 4) :=
  judge_scores_clamped_no_nan (some ⟨some (.num 7), none, some .posInf, some (.num 3)⟩)
    ⟨by decide, by decide, by decide, by decide⟩

/-- C6 counterexample: a response whose relevance score field is a
non-numeric JSON value (JS coercion NaN, e.g. `"score": "high"`):
`Math.max(0, Math.min(10, NaN))` is NaN, so the produced relevance score is
not within [0, 10] and `avgScore` is NaN as well — the claim fails as
stated over all Oracle responses. -/
theorem judge_scores_nan_counterexample :
    (ProposalJudge.parseScoresJ (some ⟨some .nan, some (.num 9), some (.num 9),
      some (.num 9)⟩)).relevance = .nan ∧
    ¬ JNum.inRange10 (ProposalJudge.parseScoresJ (some ⟨some .nan, some (.num 9),
      some (.num 9), some (.num 9)⟩)).relevance ∧
    (ProposalJudge.parseScoresJ (some ⟨some .nan, some (.num 9), some (.num 9),
      some (.num 9)⟩)).avgScore = .nan := by
  exact ⟨rfl, fun hcontra => hcontra, rfl⟩

/-! ## Claim C2 — the plan safety gate -/

/-- Helper: no dangerous pattern matches the empty content (every pattern
needs at least one character). -/
theorem dangerous_test_empty (d : DPattern) (hd : d ∈ dangerousPatterns) :
    d.test "" = false := by
  simp only [dangerousPatterns, List.mem_cons, List.not_mem_nil, or_false] at hd
  rcases hd with rfl | rfl | rfl | rfl | rfl | rfl | rfl | rfl | rfl | rfl <;> decide

/-- Helper: a change that violates one of the per-change invariants (with a
non-empty filePath for the path clauses) contributes at least one error in
`_validatePlan`'s loop. -/
theorem changeErrors_ne_nil (cfg : PlannerConfig) (c : FileChange)
    (h : (∃ p, c.filePath = some p ∧ p ≠ "" ∧
        ((∀ a ∈ cfg.allowedPaths, strStartsWith p a = false) ∨
         (∃ f ∈ cfg.forbiddenPaths, strStartsWith p f = true))) ∨
      (∃ s, c.content = some s ∧ ∃ d ∈ dangerousPatterns, d.test s = true) ∨
      (c.action = some "create" ∧ (c.content = none ∨ c.content = some ""))) :
    CodePlanner.changeErrors cfg c ≠ [] := by
  rcases h with ⟨p, hp, hne, hpath⟩ | ⟨s, hs, d, hd, ht⟩ | ⟨hact, hcon⟩
  · have h1 : truthy c.filePath = true := by rw [hp]; simpa [truthy] using hne
    rcases hpath with hall | ⟨f, hf, hsw⟩
    · apply List.ne_nil_of_mem (a := "Path not in allowlist: " ++ optStr c.filePath)
      unfold CodePlanner.changeErrors
      refine List.mem_append.mpr (Or.inl (List.mem_append.mpr (Or.inl
        (List.mem_append.mpr (Or.inr ?_)))))
      have h2 : (cfg.allowedPaths.any fun allowed =>
          truthy c.filePath && strStartsWith (c.filePath.getD "") allowed) = false := by
        rw [List.any_eq_false]
        intro a ha
        rw [hp]
        simp [hall a ha]
      rw [h2, h1]
      simp
    · apply List.ne_nil_of_mem
        (a := "Forbidden path: " ++ optStr c.filePath ++ " (matches " ++ f ++ ")")
      unfold CodePlanner.changeErrors
      refine List.mem_append.mpr (Or.inl (List.mem_append.mpr (Or.inl
        (List.mem_append.mpr (Or.inl ?_)))))
      refine List.mem_filterMap.mpr ⟨f, hf, ?_⟩
      have h3 : strStartsWith (c.filePath.getD "") f = true := by rw [hp]; exact hsw
      rw [h1, h3]
      simp
  · have hsne : s ≠ "" := by
      intro hcontra
      rw [hcontra, dangerous_test_empty d hd] at ht
      exact Bool.false_ne_true ht
    apply List.ne_nil_of_mem
      (a := "Dangerous pattern detected in " ++ optStr c.filePath ++ ": " ++ d.source)
    unfold CodePlanner.changeErrors
    refine List.mem_append.mpr (Or.inl (List.mem_append.mpr (Or.inr ?_)))
    have h1 : truthy c.content = true := by rw [hs]; simpa [truthy] using hsne
    rw [h1]
    simp only [if_true]
    refine List.mem_filterMap.mpr ⟨d, hd, ?_⟩
    have h2 : d.test (c.content.getD "") = true := by rw [hs]; exact ht
    rw [h2]
    simp
  · apply List.ne_nil_of_mem (a := "Create action for " ++ optStr c.filePath ++ " has no content")
    unfold CodePlanner.changeErrors
    refine List.mem_append.mpr (Or.inr ?_)
    have hcond : (c.action == some "create" && (c.content.getD "").data.all jsWs) = true := by
      rw [hact]
      rcases hcon with hn | he
      · rw [hn]; rfl
      · rw [he]; rfl
    rw [hcond]
    simp

/-- Helper: a violated invariant makes `_validatePlan` return a non-empty
error list. -/
theorem validatePlan_ne_nil (cfg : PlannerConfig) (pl : Plan) (l : List FileChange)
    (hc : pl.changes = some l) (h : ViolatesInv cfg l) :
    CodePlanner.validatePlan cfg (some pl) ≠ [] := by
  obtain ⟨ps, pr, pe, pc⟩ := pl
  have hc' : pc = some l := hc
  subst hc'
  have hred : CodePlanner.validatePlan cfg (some ⟨ps, pr, pe, some l⟩) =
      (if l.length = 0 then ["Plan has zero changes"]
       else
         (if 10 < l.length then
            ["Too many changes (" ++ toString l.length ++ "). Maximum is 10 per proposal."]
          else []) ++
         l.flatMap (CodePlanner.changeErrors cfg)) := rfl
  rw [hred]
  rcases h with h10 | ⟨c, hcl, hviol⟩
  · have hlen : ¬ l.length = 0 := by omega
    rw [if_neg hlen, if_pos h10]
    simp
  · have hne : l ≠ [] := List.ne_nil_of_mem hcl
    have hlen : ¬ l.length = 0 := by simpa [List.length_eq_zero] using hne
    rw [if_neg hlen]
    have hce := changeErrors_ne_nil cfg c hviol
    obtain ⟨e, he⟩ := List.exists_mem_of_ne_nil _ hce
    have hmem : e ∈ l.flatMap (CodePlanner.changeErrors cfg) :=
      List.mem_flatMap.mpr ⟨c, hcl, he⟩
    intro hnil
    rw [List.append_eq_nil] at hnil
    rw [hnil.2] at hmem
    exact List.not_mem_nil e hmem

/-- Helper: with an APPROVED verdict and an invalid plan result,
`_processProposal` marks `plan_failed` and touches nothing. -/
theorem processProposal_plan_failed (wcfg : WriterConfig) (wst : WriterState) (i : PInput)
    (hev : i.ev.verdict = .APPROVED) (hv : i.pr.valid = false) :
    EvolutionDaemon.processProposal wcfg wst i = ⟨"plan_failed", wst, false, false, false⟩ := by
  unfold EvolutionDaemon.processProposal
  rw [hev]
  simp [hv]

/-- C2 (amended): every plan with a change violating an invariant — more than
10 changes, a change whose non-empty filePath starts with no allow-prefix or
starts with a deny-prefix, content matching a dangerous-pattern regex, or a
create action with empty content — makes `CodePlanner.plan` return
`valid = false` with a non-empty errors list, and `_processProposal` then
marks the proposal `plan_failed` without invoking `CodeWriter.apply`: the
writer state (and hence the disk) is returned untouched. -/
theorem planner_invariant_gate (cfg : PlannerConfig) (pl : Plan) (l : List FileChange)
    (hc : pl.changes = some l) (h : ViolatesInv cfg l)
    (wcfg : WriterConfig) (wst : WriterState) (i : PInput)
    (hev : i.ev.verdict = .APPROVED)
    (hpr : i.pr = CodePlanner.planResult cfg pl) :
    (CodePlanner.planResult cfg pl).valid = false ∧
    (CodePlanner.planResult cfg pl).errors ≠ [] ∧
    (EvolutionDaemon.processProposal wcfg wst i).outcome = "plan_failed" ∧
    (EvolutionDaemon.processProposal wcfg wst i).applyInvoked = false ∧
    (EvolutionDaemon.processProposal wcfg wst i).wst = wst := by
  have hvp := validatePlan_ne_nil cfg pl l hc h
  have hvalid : (CodePlanner.planResult cfg pl).valid = false := by
    unfold CodePlanner.planResult
    simpa using hvp
  have hproc := processProposal_plan_failed wcfg wst i hev (by rw [hpr]; exact hvalid)
  exact ⟨hvalid, by simpa [CodePlanner.planResult] using hvp,
    by rw [hproc], by rw [hproc], by rw [hproc]⟩

/-- C2 witness: a one-change plan targeting `.git/config` (Scenario C) under
the default path policy: the gate fires and the daemon marks `plan_failed`
without invoking the writer. -/
theorem planner_invariant_gate_witness :
    (CodePlanner.planResult ⟨defaultAllowedPaths, defaultForbiddenPaths⟩
      ⟨none, none, none, some [⟨some "modify", some ".git/config", none, some "x"⟩]⟩).valid = false ∧
    (CodePlanner.planResult ⟨defaultAllowedPaths, defaultForbiddenPaths⟩
      ⟨none, none, none, some [⟨some "modify", some ".git/config", none, some "x"⟩]⟩).errors ≠ [] ∧
    (EvolutionDaemon.processProposal ⟨"/r", "/r/b", 51200, defaultAllowedPaths, defaultForbiddenPaths⟩
      ⟨[], []⟩
      ⟨true, "/r/b/run-1", ⟨.APPROVED, ⟨9, 9, 9, 9⟩, ⟨"", "", "", ""⟩, "ok", 9⟩,
       CodePlanner.planResult ⟨defaultAllowedPaths, defaultForbiddenPaths⟩
         ⟨none, none, none, some [⟨some "modify", some ".git/config", none, some "x"⟩]⟩,
       true, true, none⟩).outcome = "plan_failed" ∧
    (EvolutionDaemon.processProposal ⟨"/r", "/r/b", 51200, defaultAllowedPaths, defaultForbiddenPaths⟩
      ⟨[], []⟩
      ⟨true, "/r/b/run-1", ⟨.APPROVED, ⟨9, 9, 9, 9⟩, ⟨"", "", "", ""⟩, "ok", 9⟩,
       CodePlanner.planResult ⟨defaultAllowedPaths, defaultForbiddenPaths⟩
         ⟨none, none, none, some [⟨some "modify", some ".git/config", none, some "x"⟩]⟩,
       true, true, none⟩).applyInvoked = false := by
  have h := planner_invariant_gate ⟨defaultAllowedPaths, defaultForbiddenPaths⟩
    ⟨none, none, none, some [⟨some "modify", some ".git/config", none, some "x"⟩]⟩
    [⟨some "modify", some ".git/config", none, some "x"⟩] rfl
    (Or.inr ⟨⟨some "modify", some ".git/config", none, some "x"⟩, List.mem_singleton.mpr rfl,
      Or.inl ⟨".git/config", rfl, by decide, Or.inr ⟨".git/", by decide, by decide⟩⟩⟩)
    ⟨"/r", "/r/b", 51200, defaultAllowedPaths, defaultForbiddenPaths⟩ ⟨[], []⟩
    ⟨true, "/r/b/run-1", ⟨.APPROVED, ⟨9, 9, 9, 9⟩, ⟨"", "", "", ""⟩, "ok", 9⟩,
     CodePlanner.planResult ⟨defaultAllowedPaths, defaultForbiddenPaths⟩
       ⟨none, none, none, some [⟨some "modify", some ".git/config", none, some "x"⟩]⟩,
     true, true, none⟩ rfl rfl
  exact ⟨h.1, h.2.1, h.2.2.1, h.2.2.2.1⟩

/-- C2 counterexample: the one-change plan
`{action: "modify", filePath: "", content: "x"}` violates the claim's
invariant as stated — its filePath starts with no allow-prefix — yet
`_validatePlan` under the default policy returns no error and the planner
reports the plan **valid** (JS truthiness skips both path checks for an empty
string), so the daemon would proceed to invoke `CodeWriter.apply`. -/
theorem planner_invariant_gate_counterexample :
    ViolatesLit ⟨defaultAllowedPaths, defaultForbiddenPaths⟩
      [⟨some "modify", some "", none, some "x"⟩] ∧
    CodePlanner.validatePlan ⟨defaultAllowedPaths, defaultForbiddenPaths⟩
      (some ⟨none, none, none, some [⟨some "modify", some "", none, some "x"⟩]⟩) = [] ∧
    (CodePlanner.planResult ⟨defaultAllowedPaths, defaultForbiddenPaths⟩
      ⟨none, none, none, some [⟨some "modify", some "", none, some "x"⟩]⟩).valid = true := by
  refine ⟨Or.inr ⟨⟨some "modify", some "", none, some "x"⟩, List.mem_singleton.mpr rfl,
    Or.inl ⟨"", rfl, Or.inl (by decide)⟩⟩, by decide, by decide⟩

/-! ## Claim C10 — path traversal defence in the writer -/

/-- Helper: a path containing `..` is non-empty. -/
theorem strIncludes_dotdot_ne_empty (p : String) (h : strIncludes p ".." = true) : p ≠ "" := by
  intro hcontra
  rw [hcontra] at h
  exact Bool.false_ne_true ((by decide : strIncludes "" ".." = false) ▸ h)

/-- Helper: the traversal check fires before the allow/deny checks. -/
theorem validatePath_traversal (cfg : WriterConfig) (p : String)
    (h : strIncludes p ".." = true) :
    CodeWriter.validatePath cfg (some p) = some ("Path traversal detected: " ++ p) := by
  have hred : CodeWriter.validatePath cfg (some p) =
      (if p = "" then some "Empty file path"
       else if strIncludes p ".." then some ("Path traversal detected: " ++ p)
       else
         match cfg.forbiddenPaths.find? (fun forbidden => strStartsWith p forbidden) with
         | some _ => some ("Forbidden path: " ++ p)
         | none =>
             if cfg.allowedPaths.any (fun allowed => strStartsWith p allowed) then none
             else some ("Path not in allowlist: " ++ p)) := rfl
  rw [hred, if_neg (strIncludes_dotdot_ne_empty p h), if_pos h]

/-- Helper: an error produced for a change independently of the file system
surfaces in the error list of the whole loop. -/
theorem applyList_error_mem (cfg : WriterConfig) (runDir : String) (c : FileChange)
    (msg : String)
    (hstep : ∀ fs, CodeWriter.applyChange cfg runDir fs c = (fs, [], [msg])) :
    ∀ (l : List FileChange) (fs : FS), c ∈ l →
      msg ∈ (CodeWriter.applyList cfg runDir fs l).2.2 := by
  intro l
  induction l with
  | nil => intro fs hmem; exact absurd hmem (List.not_mem_nil c)
  | cons d ds ih =>
      intro fs hmem
      have hred : (CodeWriter.applyList cfg runDir fs (d :: ds)).2.2 =
          (CodeWriter.applyChange cfg runDir fs d).2.2 ++
          (CodeWriter.applyList cfg runDir (CodeWriter.applyChange cfg runDir fs d).1 ds).2.2 := rfl
      rw [hred]
      rcases List.mem_cons.mp hmem with heq | hmem'
      · rw [← heq, hstep fs]
        exact List.mem_append.mpr (Or.inl (List.mem_singleton.mpr rfl))
      · exact List.mem_append.mpr (Or.inr (ih _ hmem'))

/-- C10: for every change whose filePath contains the substring `..`,
`CodeWriter.apply`'s per-change step records exactly the error
`Path traversal detected: <filePath>`, applies no record and leaves every
file unchanged — regardless of the allow/deny lists — and that error appears
in the error list of `CodeWriter.apply` for any plan containing the change. -/
theorem writer_path_traversal (cfg : WriterConfig) (runDir : String) (c : FileChange)
    (p : String) (hp : c.filePath = some p) (hdd : strIncludes p ".." = true) :
    (∀ fs, CodeWriter.applyChange cfg runDir fs c =
      (fs, [], ["Path traversal detected: " ++ p])) ∧
    (∀ (st : WriterState) (pl : Plan) (l : List FileChange),
      pl.changes = some l → c ∈ l →
      ("Path traversal detected: " ++ p) ∈
        (CodeWriter.apply cfg runDir st (some pl)).2.errors) := by
  have hstep : ∀ fs, CodeWriter.applyChange cfg runDir fs c =
      (fs, [], ["Path traversal detected: " ++ p]) := by
    intro fs
    unfold CodeWriter.applyChange
    rw [hp, validatePath_traversal cfg p hdd]
  refine ⟨hstep, ?_⟩
  intro st pl l hcl hmem
  obtain ⟨ps, pr, pe, pc⟩ := pl
  have hcl' : pc = some l := hcl
  subst hcl'
  cases l with
  | nil => exact absurd hmem (List.not_mem_nil c)
  | cons d ds =>
      have hred : (CodeWriter.apply cfg runDir st (some ⟨ps, pr, pe, some (d :: ds)⟩)).2.errors =
          (CodeWriter.applyList cfg runDir st.fs (d :: ds)).2.2 := rfl
      rw [hred]
      exact applyList_error_mem cfg runDir c _ hstep (d :: ds) st.fs hmem

/-- C10 witness: the change `{action: "modify", filePath: "core/../.env",
content: "x"}` is refused with the traversal error, nothing is applied, and
the error surfaces in the `apply` result — although `core/../.env` starts
with the allow-prefix `core/`. -/
theorem writer_path_traversal_witness :
    (CodeWriter.applyChange ⟨"/r", "/r/b", 51200, defaultAllowedPaths, defaultForbiddenPaths⟩
      "/r/b/run-1" [("/r/core/a.js", "orig")]
      ⟨some "modify", some "core/../.env", none, some "x"⟩ =
      ([("/r/core/a.js", "orig")], [], ["Path traversal detected: core/../.env"])) ∧
    ("Path traversal detected: core/../.env" ∈
      (CodeWriter.apply ⟨"/r", "/r/b", 51200, defaultAllowedPaths, defaultForbiddenPaths⟩
        "/r/b/run-1" ⟨[("/r/core/a.js", "orig")], []⟩
        (some ⟨none, none, none,
          some [⟨some "modify", some "core/../.env", none, some "x"⟩]⟩)).2.errors) ∧
    strStartsWith "core/../.env" "core/" = true := by
  have h := writer_path_traversal ⟨"/r", "/r/b", 51200, defaultAllowedPaths, defaultForbiddenPaths⟩
    "/r/b/run-1" ⟨some "modify", some "core/../.env", none, some "x"⟩
    "core/../.env" rfl (by decide)
  exact ⟨h.1 [("/r/core/a.js", "orig")],
    h.2 ⟨[("/r/core/a.js", "orig")], []⟩
      ⟨none, none, none, some [⟨some "modify", some "core/../.env", none, some "x"⟩]⟩
      [⟨some "modify", some "core/../.env", none, some "x"⟩] rfl
      (List.mem_singleton.mpr rfl),
    by decide⟩

/-! ## Claim C8 — collect(): dedup, age filter, truncation (and no sort) -/

/-- C8 (amended): `collect()` returns an order-preserving subsequence of the
gathered proposals (the gathered order — issue source first, then the local
queue — is kept; there is no newest-first sort), keeping exactly those whose
ids have no ProcessedRecord and whose timestamps are within `maxAge` of now,
truncated to the first `maxPerCycle`; and once an id is marked processed no
subsequent `collect()` result contains it. -/
theorem inbox_collect_filters (processedIds : List String) (getTime : String → Int)
    (now maxAge : Int) (maxPerCycle : Nat) (proposals : List Proposal) :
    List.Sublist (InboxCollector.collect processedIds getTime now maxAge maxPerCycle proposals)
      proposals ∧
    (InboxCollector.collect processedIds getTime now maxAge maxPerCycle proposals).length ≤
      maxPerCycle ∧
    (∀ p ∈ InboxCollector.collect processedIds getTime now maxAge maxPerCycle proposals,
      processedIds.contains p.id = false ∧ now - maxAge < getTime p.timestamp) ∧
    (∀ pid p, p ∈ InboxCollector.collect (InboxCollector.markProcessed processedIds pid)
        getTime now maxAge maxPerCycle proposals → p.id ≠ pid) := by
  refine ⟨?_, ?_, ?_, ?_⟩
  · exact (List.take_sublist _ _).trans ((List.filter_sublist _).trans (List.filter_sublist _))
  · exact List.length_take_le _ _
  · intro p hp
    unfold InboxCollector.collect at hp
    have h2 := List.mem_of_mem_take hp
    have h3 := List.mem_filter.mp h2
    have h4 := List.mem_filter.mp h3.1
    refine ⟨by simpa using h4.2, by simpa using h3.2⟩
  · intro pid p hp heq
    unfold InboxCollector.collect at hp
    have h2 := List.mem_of_mem_take hp
    have h3 := (List.mem_filter.mp h2).1
    have h4 := (List.mem_filter.mp h3).2
    rw [InboxCollector.markProcessed] at h4
    simp [heq] at h4

/-- C8 witness: a proposal collected after `markProcessed([], "done")` has an
id different from "done". -/
theorem inbox_collect_filters_witness :
    (⟨"gh-issue-1", "github-issue", "a", "t", "b", "T", none⟩ : Proposal).id ≠ "done" :=
  (inbox_collect_filters [] (fun _ => 5) 10 100 2
      [⟨"gh-issue-1", "github-issue", "a", "t", "b", "T", none⟩]).2.2.2 "done"
    ⟨"gh-issue-1", "github-issue", "a", "t", "b", "T", none⟩ (by decide)

/-- C8 counterexample: two fresh, recent proposals gathered oldest-first (as
the local queue yields them) with `maxPerCycle = 1`: `collect()` keeps the
gathered order and returns the **oldest**, while the claim's newest-first
sort would return the newest. -/
theorem inbox_collect_counterexample :
    InboxCollector.collect [] (fun ts => if ts = "B" then 2 else 1) 10 100 1
      [⟨"p1", "local", "a", "t1", "b1", "A", none⟩,
       ⟨"p2", "local", "a", "t2", "b2", "B", none⟩] =
      [⟨"p1", "local", "a", "t1", "b1", "A", none⟩] ∧
    InboxCollector.collectSpec [] (fun ts => if ts = "B" then 2 else 1) 10 100 1
      [⟨"p1", "local", "a", "t1", "b1", "A", none⟩,
       ⟨"p2", "local", "a", "t2", "b2", "B", none⟩] =
      [⟨"p2", "local", "a", "t2", "b2", "B", none⟩] ∧
    (⟨"p1", "local", "a", "t1", "b1", "A", none⟩ : Proposal) ≠
      ⟨"p2", "local", "a", "t2", "b2", "B", none⟩ := by
  refine ⟨by decide, by decide, by decide⟩

/-! ## Claim C9 — the issue-source proposal mapping -/

/-- C9 (amended): the issue-source mapping builds the Proposal from the
issue exactly as claimed except the id prefix, which is `gh-issue-`, not
`src-issue-`: id `gh-issue-<number>`, author the issue's user login
(`unknown` when missing), title and body from the issue, timestamp the
issue's `created_at`, raw `{number, url, labels}` with the label names. -/
theorem inbox_issue_mapping (issue : Issue) :
    (InboxCollector.mapIssue issue).id = "gh-issue-" ++ toString issue.number ∧
    (InboxCollector.mapIssue issue).source = "github-issue" ∧
    (∀ u, issue.userLogin = some u → u ≠ "" → (InboxCollector.mapIssue issue).author = u) ∧
    (InboxCollector.mapIssue issue).title = issue.title ∧
    (∀ b, issue.body = some b → b ≠ "" → (InboxCollector.mapIssue issue).body = b) ∧
    (InboxCollector.mapIssue issue).timestamp = issue.created_at ∧
    (InboxCollector.mapIssue issue).raw =
      some ⟨issue.number, issue.html_url, issue.labels.map Label.name⟩ := by
  refine ⟨rfl, rfl, ?_, rfl, ?_, rfl, rfl⟩
  · intro u hu hne
    simp [InboxCollector.mapIssue, hu, jsOr, hne]
  · intro b hb hne
    simp [InboxCollector.mapIssue, hb, jsOr, hne]

/-- C9 witness: issue 7 by alice maps to author "alice" and body "B". -/
theorem inbox_issue_mapping_witness :
    (InboxCollector.mapIssue
      ⟨7, some "alice", "T", some "B", "2024-01-01", "https://x/7", [⟨"evolution"⟩]⟩).author =
      "alice" ∧
    (InboxCollector.mapIssue
      ⟨7, some "alice", "T", some "B", "2024-01-01", "https://x/7", [⟨"evolution"⟩]⟩).body = "B" :=
  ⟨(inbox_issue_mapping _).2.2.1 "alice" rfl (by decide),
   (inbox_issue_mapping _).2.2.2.2.1 "B" rfl (by decide)⟩

/-- C9 counterexample: issue number 7 maps to the id `gh-issue-7`, not
`src-issue-7` as the claim states. -/
theorem inbox_issue_id_counterexample :
    (InboxCollector.mapIssue
      ⟨7, some "alice", "T", some "B", "2024-01-01", "https://x/7", [⟨"evolution"⟩]⟩).id =
      "gh-issue-7" ∧
    ("gh-issue-7" : String) ≠ "src-issue-7" := by
  refine ⟨by decide, by decide⟩

/-! ## Claim C7 — daily rate limit -/

/-- Helper: one cons-step unfolding of `runBatch`. -/
theorem runBatch_cons (cfg : WriterConfig) (maxPerDay : Nat) (st : DayState) (i : PInput)
    (is : List PInput) :
    EvolutionDaemon.runBatch cfg maxPerDay st (i :: is) =
      (if maxPerDay ≤ st.dailyCount then st
       else if !i.stillRunning then st
       else EvolutionDaemon.runBatch cfg maxPerDay (EvolutionDaemon.procStep cfg st i) is) := rfl

/-- Helper: along a batch, commits stay below the daily counter and the
counter stays below the cap. -/
theorem runBatch_bound (cfg : WriterConfig) (maxPerDay : Nat) :
    ∀ (b : List PInput) (st : DayState), st.commits ≤ st.dailyCount →
      st.dailyCount ≤ maxPerDay →
      (EvolutionDaemon.runBatch cfg maxPerDay st b).commits ≤
          (EvolutionDaemon.runBatch cfg maxPerDay st b).dailyCount ∧
        (EvolutionDaemon.runBatch cfg maxPerDay st b).dailyCount ≤ maxPerDay := by
  intro b
  induction b with
  | nil => intro st h1 h2; exact ⟨h1, h2⟩
  | cons i is ih =>
      intro st h1 h2
      rw [runBatch_cons]
      by_cases hcap : maxPerDay ≤ st.dailyCount
      · rw [if_pos hcap]; exact ⟨h1, h2⟩
      · rw [if_neg hcap]
        by_cases hrun : (!i.stillRunning) = true
        · rw [if_pos hrun]; exact ⟨h1, h2⟩
        · rw [if_neg hrun]
          apply ih
          · unfold EvolutionDaemon.procStep
            by_cases hcom : (EvolutionDaemon.processProposal cfg st.wst i).committed = true
            · rw [if_pos hcom]; exact Nat.add_le_add_right h1 1
            · rw [if_neg hcom]; exact h1
          · unfold EvolutionDaemon.procStep
            by_cases hcom : (EvolutionDaemon.processProposal cfg st.wst i).committed = true
            · rw [if_pos hcom]
              show st.dailyCount + 1 ≤ maxPerDay
              omega
            · rw [if_neg hcom]; exact h2

/-- Helper: a cycle preserves the counter/commit invariant. -/
theorem cycle_bound (cfg : WriterConfig) (maxPerDay : Nat) (st : DayState)
    (batch : List PInput) (h1 : st.commits ≤ st.dailyCount) (h2 : st.dailyCount ≤ maxPerDay) :
    (EvolutionDaemon.cycle cfg maxPerDay st batch).commits ≤
        (EvolutionDaemon.cycle cfg maxPerDay st batch).dailyCount ∧
      (EvolutionDaemon.cycle cfg maxPerDay st batch).dailyCount ≤ maxPerDay := by
  unfold EvolutionDaemon.cycle
  by_cases hcap : maxPerDay ≤ st.dailyCount
  · rw [if_pos hcap]; exact ⟨h1, h2⟩
  · rw [if_neg hcap]; exact runBatch_bound cfg maxPerDay batch st h1 h2

/-- C7: the daily rate limit.  (i) Within one calendar day, the number of
proposals that reach a successful commit never exceeds `maxPerDay`; (ii) a
cycle that starts at the cap is skipped whole; (iii) the cap is re-checked
before each proposal of a batch; (iv) the counter increments exactly when the
proposal's run commits; (v) `committed` holds only for the success outcomes
(`pr_created`/`committed`). -/
theorem daemon_rate_limit (cfg : WriterConfig) (maxPerDay : Nat) :
    (∀ (wst : WriterState) (cycles : List (List PInput)),
      (EvolutionDaemon.runDay cfg maxPerDay wst cycles).commits ≤ maxPerDay) ∧
    (∀ (st : DayState) (batch : List PInput),
      maxPerDay ≤ st.dailyCount → EvolutionDaemon.cycle cfg maxPerDay st batch = st) ∧
    (∀ (st : DayState) (i : PInput) (is : List PInput),
      maxPerDay ≤ st.dailyCount → EvolutionDaemon.runBatch cfg maxPerDay st (i :: is) = st) ∧
    (∀ (st : DayState) (i : PInput),
      (EvolutionDaemon.procStep cfg st i).dailyCount =
        st.dailyCount +
          (if (EvolutionDaemon.processProposal cfg st.wst i).committed then 1 else 0)) ∧
    (∀ (wst : WriterState) (i : PInput),
      (EvolutionDaemon.processProposal cfg wst i).committed = true →
        (EvolutionDaemon.processProposal cfg wst i).outcome = "pr_created" ∨
        (EvolutionDaemon.processProposal cfg wst i).outcome = "committed") := by
  refine ⟨?_, ?_, ?_, ?_, ?_⟩
  · intro wst cycles
    have main : ∀ (cs : List (List PInput)) (st : DayState),
        st.commits ≤ st.dailyCount → st.dailyCount ≤ maxPerDay →
        (cs.foldl (fun s batch => EvolutionDaemon.cycle cfg maxPerDay s batch) st).commits ≤
            (cs.foldl (fun s batch => EvolutionDaemon.cycle cfg maxPerDay s batch) st).dailyCount ∧
          (cs.foldl (fun s batch => EvolutionDaemon.cycle cfg maxPerDay s batch) st).dailyCount ≤
            maxPerDay := by
      intro cs
      induction cs with
      | nil => intro st h1 h2; exact ⟨h1, h2⟩
      | cons batch rest ih =>
          intro st h1 h2
          have hstep := cycle_bound cfg maxPerDay st batch h1 h2
          exact ih _ hstep.1 hstep.2
    have h := main cycles ⟨0, 0, wst⟩ (Nat.le_refl 0) (Nat.zero_le maxPerDay)
    exact le_trans h.1 h.2
  · intro st batch hcap
    unfold EvolutionDaemon.cycle
    rw [if_pos hcap]
  · intro st i is hcap
    rw [runBatch_cons, if_pos hcap]
  · intro st i
    by_cases hcom : (EvolutionDaemon.processProposal cfg st.wst i).committed = true
    · simp [EvolutionDaemon.procStep, hcom]
    · simp [EvolutionDaemon.procStep, hcom]
  · intro wst i hcom
    unfold EvolutionDaemon.processProposal at hcom ⊢
    split_ifs at hcom ⊢ <;> simp_all

/-- C7 witness: with a cap of 1, a day of two cycles whose proposals would
each commit produces exactly 1 commit, and a cycle starting at the cap is a
no-op. -/
theorem daemon_rate_limit_witness :
    (EvolutionDaemon.runDay ⟨"/r", "/r/b", 51200, defaultAllowedPaths, defaultForbiddenPaths⟩
        1 ⟨[], []⟩
        [[⟨true, "/r/b/run-1", ⟨.REJECTED, ⟨0, 0, 0, 0⟩, ⟨"", "", "", ""⟩, "no", 0⟩,
            ⟨none, false, ["e"]⟩, true, true, none⟩]]).commits ≤ 1 ∧
    EvolutionDaemon.cycle ⟨"/r", "/r/b", 51200, defaultAllowedPaths, defaultForbiddenPaths⟩
        1 ⟨1, 1, ⟨[], []⟩⟩
        [⟨true, "/r/b/run-1", ⟨.REJECTED, ⟨0, 0, 0, 0⟩, ⟨"", "", "", ""⟩, "no", 0⟩,
          ⟨none, false, ["e"]⟩, true, true, none⟩] = ⟨1, 1, ⟨[], []⟩⟩ :=
  ⟨(daemon_rate_limit ⟨"/r", "/r/b", 51200, defaultAllowedPaths, defaultForbiddenPaths⟩ 1).1
      ⟨[], []⟩ _,
   (daemon_rate_limit ⟨"/r", "/r/b", 51200, defaultAllowedPaths, defaultForbiddenPaths⟩ 1).2.1
      ⟨1, 1, ⟨[], []⟩⟩ _ (by decide)⟩

/-! ## Claims C3/C4 — CodeWriter rollback -/

/-- Helper: erasing another path does not change a read. -/
theorem fsRead_fsErase_ne (fs : FS) (p q : String) (h : q ≠ p) :
    fsRead (fsErase fs p) q = fsRead fs q := by
  induction fs with
  | nil => rfl
  | cons e rest ih =>
      show fsRead (if e.1 = p then fsErase rest p else e :: fsErase rest p) q =
        (if e.1 = q then some e.2 else fsRead rest q)
      by_cases he : e.1 = p
      · have hq : ¬ e.1 = q := fun hh => h (by rw [← hh, he])
        rw [if_pos he, ih, if_neg hq]
      · rw [if_neg he]
        show (if e.1 = q then some e.2 else fsRead (fsErase rest p) q) = _
        by_cases hq : e.1 = q
        · rw [if_pos hq, if_pos hq]
        · rw [if_neg hq, if_neg hq, ih]

/-- Helper: after erasing `p`, reading `p` gives nothing. -/
theorem fsRead_fsErase_self (fs : FS) (p : String) :
    fsRead (fsErase fs p) p = none := by
  induction fs with
  | nil => rfl
  | cons e rest ih =>
      show fsRead (if e.1 = p then fsErase rest p else e :: fsErase rest p) p = none
      by_cases he : e.1 = p
      · rw [if_pos he]; exact ih
      · rw [if_neg he]
        show (if e.1 = p then some e.2 else fsRead (fsErase rest p) p) = none
        rw [if_neg he]; exact ih

/-- Helper: reading after a write. -/
theorem fsRead_fsWrite (fs : FS) (p c q : String) :
    fsRead (fsWrite fs p c) q = if q = p then some c else fsRead fs q := by
  show (if p = q then some c else fsRead (fsErase fs p) q) = _
  by_cases h : q = p
  · rw [if_pos h.symm, if_pos h]
  · rw [if_neg (fun hh : p = q => h hh.symm), if_neg h, fsRead_fsErase_ne fs p q h]

/-- Helper: reading after a delete. -/
theorem fsRead_fsDelete (fs : FS) (p q : String) :
    fsRead (fsDelete fs p) q = if q = p then none else fsRead fs q := by
  by_cases h : q = p
  · rw [if_pos h, h]
    exact fsRead_fsErase_self fs p
  · rw [if_neg h]
    exact fsRead_fsErase_ne fs p q h

/-- Helper: `path.join` is injective in its second argument. -/
theorem pathJoin_right_inj {r p q : String} (h : pathJoin r p = pathJoin r q) : p = q := by
  have hd := congrArg String.data h
  simp only [pathJoin, String.data_append] at hd
  exact String.ext (List.append_cancel_left hd)

/-- Helper: distinct relative paths give distinct joined paths. -/
theorem pathJoin_right_ne {r p q : String} (h : p ≠ q) : pathJoin r p ≠ pathJoin r q :=
  fun hh => h (pathJoin_right_inj hh)

/-- Helper: an existing read is its defaulted value. -/
theorem some_getD_of_isSome (o : Option String) (h : o.isSome = true) :
    some (o.getD "") = o := by
  cases o with
  | some v => rfl
  | none => exact absurd h (by simp)

/-- Helper: the per-change step on a valid, in-bounds, defined-content
modify/create change is backup-then-write with one record and no error. -/
theorem applyChange_good (cfg : WriterConfig) (runDir : String) (fs : FS) (c : FileChange)
    (s : String)
    (hval : CodeWriter.validatePath cfg c.filePath = none)
    (hcon : c.content = some s) (hsize : s.utf8ByteSize ≤ cfg.maxFileSize)
    (hact : c.action = some "modify" ∨ c.action = some "create") :
    CodeWriter.applyChange cfg runDir fs c =
      (fsWrite (CodeWriter.backupIfExists cfg runDir fs (c.filePath.getD ""))
         (absOf cfg c) s,
       [⟨if c.action == some "modify" then "modify" else "create",
         c.filePath.getD "", runDir⟩], []) := by
  have hns : ¬ (cfg.maxFileSize < (c.content.getD "").utf8ByteSize) := by
    rw [hcon]
    simpa using hsize
  rcases hact with hm | hc2
  · simp only [CodeWriter.applyChange, hval, hcon, hm, absOf]
    simp [truthy, hns, hsize]
  · simp only [CodeWriter.applyChange, hval, hcon, hc2, absOf]
    simp [truthy, hns, hsize]

/-- Helper: the backup step does not change reads away from the backup path. -/
theorem backupIfExists_other (cfg : WriterConfig) (runDir : String) (fs : FS) (p q : String)
    (hq : q ≠ pathJoin runDir p) :
    fsRead (CodeWriter.backupIfExists cfg runDir fs p) q = fsRead fs q := by
  unfold CodeWriter.backupIfExists
  by_cases h : fsExists fs (pathJoin cfg.projectRoot p) = true
  · rw [if_pos h, fsRead_fsWrite, if_neg hq]
  · rw [if_neg h]

/-- Helper: after the backup step the backup path holds the project file's
pre-step content (when it existed). -/
theorem backupIfExists_bp (cfg : WriterConfig) (runDir : String) (fs : FS) (p : String) :
    fsRead (CodeWriter.backupIfExists cfg runDir fs p) (pathJoin runDir p) =
      (if fsExists fs (pathJoin cfg.projectRoot p) then
        fsRead fs (pathJoin cfg.projectRoot p)
      else fsRead fs (pathJoin runDir p)) := by
  unfold CodeWriter.backupIfExists
  by_cases h : fsExists fs (pathJoin cfg.projectRoot p) = true
  · rw [if_pos h, if_pos h, fsRead_fsWrite, if_pos rfl]
    exact some_getD_of_isSome _ h
  · rw [if_neg h, if_neg h]

/-- Helper: a rollback step only touches the project path of its record. -/
theorem rollbackChange_untouched (cfg : WriterConfig) (fs : FS) (r : ChangeRecord)
    (q : String) (hq : q ≠ pathJoin cfg.projectRoot r.filePath) :
    fsRead (CodeWriter.rollbackChange cfg fs r).1 q = fsRead fs q := by
  unfold CodeWriter.rollbackChange
  by_cases h1 : (r.action == "create") = true
  · rw [if_pos h1]
    by_cases h2 : fsExists fs (pathJoin cfg.projectRoot r.filePath) = true
    · rw [if_pos h2]
      show fsRead (fsDelete fs (pathJoin cfg.projectRoot r.filePath)) q = fsRead fs q
      rw [fsRead_fsDelete, if_neg hq]
    · rw [if_neg h2]
  · rw [if_neg h1]
    by_cases h2 : (r.action == "modify") = true
    · rw [if_pos h2]
      cases hr : fsRead fs (pathJoin r.backupDir r.filePath) with
      | some content =>
          simp only [hr]
          show fsRead (fsWrite fs (pathJoin cfg.projectRoot r.filePath) content) q = fsRead fs q
          rw [fsRead_fsWrite, if_neg hq]
      | none => simp only [hr]
    · rw [if_neg h2]

/-- Helper: a modify rollback step restores the backed-up content. -/
theorem rollbackChange_modify_restore (cfg : WriterConfig) (runDir : String)
    (fs2a fs : FS) (p : String)
    (hbp : fsRead fs2a (pathJoin runDir p) = fsRead fs (pathJoin cfg.projectRoot p))
    (hex : (fsRead fs (pathJoin cfg.projectRoot p)).isSome = true) :
    fsRead (CodeWriter.rollbackChange cfg fs2a ⟨"modify", p, runDir⟩).1
      (pathJoin cfg.projectRoot p) = fsRead fs (pathJoin cfg.projectRoot p) := by
  obtain ⟨v, hv⟩ := Option.isSome_iff_exists.mp hex
  have hred : CodeWriter.rollbackChange cfg fs2a ⟨"modify", p, runDir⟩ =
      (match fsRead fs2a (pathJoin runDir p) with
       | some content => (fsWrite fs2a (pathJoin cfg.projectRoot p) content, 1, [])
       | none => (fs2a, 0, ["No backup found for " ++ p])) := rfl
  rw [hred, hbp, hv]
  show fsRead (fsWrite fs2a (pathJoin cfg.projectRoot p) v) (pathJoin cfg.projectRoot p) =
    some v
  rw [fsRead_fsWrite, if_pos rfl]

/-- Helper: a create rollback step leaves the project path absent. -/
theorem rollbackChange_create_deletes (cfg : WriterConfig) (runDir : String)
    (fs2a : FS) (p : String) :
    fsRead (CodeWriter.rollbackChange cfg fs2a ⟨"create", p, runDir⟩).1
      (pathJoin cfg.projectRoot p) = none := by
  have hred : CodeWriter.rollbackChange cfg fs2a ⟨"create", p, runDir⟩ =
      (if fsExists fs2a (pathJoin cfg.projectRoot p) then
        (fsDelete fs2a (pathJoin cfg.projectRoot p), 1, [])
      else (fs2a, 0, [])) := rfl
  rw [hred]
  by_cases h : fsExists fs2a (pathJoin cfg.projectRoot p) = true
  · rw [if_pos h]
    show fsRead (fsDelete fs2a (pathJoin cfg.projectRoot p)) (pathJoin cfg.projectRoot p) = none
    rw [fsRead_fsDelete, if_pos rfl]
  · rw [if_neg h]
    show fsRead fs2a (pathJoin cfg.projectRoot p) = none
    unfold fsExists at h
    exact Option.not_isSome_iff_eq_none.mp h

/-- Helper: rolling back a concatenation is rolling back the pieces. -/
theorem rollbackList_append_fs (cfg : WriterConfig) (xs ys : List ChangeRecord) (fs : FS) :
    (CodeWriter.rollbackList cfg fs (xs ++ ys)).1 =
      (CodeWriter.rollbackList cfg (CodeWriter.rollbackList cfg fs xs).1 ys).1 := by
  induction xs generalizing fs with
  | nil => rfl
  | cons r rs ih =>
      show (CodeWriter.rollbackList cfg (CodeWriter.rollbackChange cfg fs r).1 (rs ++ ys)).1 = _
      rw [ih]
      rfl

/-- Helper: rolling back a single record is one rollback step. -/
theorem rollbackList_singleton_fs (cfg : WriterConfig) (fs : FS) (r : ChangeRecord) :
    (CodeWriter.rollbackList cfg fs [r]).1 = (CodeWriter.rollbackChange cfg fs r).1 := rfl

/-- Core round trip: on a `GoodRun`, applying a change list then rolling all
records back (in reverse) produces no error, records the changes in order,
restores every modify target to its pre-run content, leaves every create
target absent, and changes nothing else. -/
theorem applyList_roundtrip (cfg : WriterConfig) (runDir : String) :
    ∀ (l : List FileChange) (fs : FS), GoodRun cfg runDir fs l →
      (CodeWriter.applyList cfg runDir fs l).2.2 = [] ∧
      (CodeWriter.applyList cfg runDir fs l).2.1 = l.map (fun c =>
        ChangeRecord.mk (if c.action == some "modify" then "modify" else "create")
          (c.filePath.getD "") runDir) ∧
      (∀ c ∈ l, c.action = some "modify" →
        fsRead (CodeWriter.rollbackList cfg (CodeWriter.applyList cfg runDir fs l).1
          ((CodeWriter.applyList cfg runDir fs l).2.1.reverse)).1 (absOf cfg c) =
          fsRead fs (absOf cfg c)) ∧
      (∀ c ∈ l, c.action = some "create" →
        fsRead (CodeWriter.rollbackList cfg (CodeWriter.applyList cfg runDir fs l).1
          ((CodeWriter.applyList cfg runDir fs l).2.1.reverse)).1 (absOf cfg c) = none) ∧
      (∀ q, (∀ c ∈ l, q ≠ absOf cfg c ∧ q ≠ bpOf runDir c) →
        fsRead (CodeWriter.rollbackList cfg (CodeWriter.applyList cfg runDir fs l).1
          ((CodeWriter.applyList cfg runDir fs l).2.1.reverse)).1 q = fsRead fs q) := by
  intro l
  induction l with
  | nil =>
      intro fs hg
      exact ⟨rfl, rfl, fun c hc => absurd hc (List.not_mem_nil c),
        fun c hc => absurd hc (List.not_mem_nil c), fun q hq => rfl⟩
  | cons c rest ih =>
      intro fs hg
      obtain ⟨hall, hnd, hmodex, hbpfresh, hdisj⟩ := hg
      obtain ⟨hact, hval, hcne, hsz⟩ := hall c (List.mem_cons_self c rest)
      obtain ⟨s, hs⟩ := Option.ne_none_iff_exists'.mp hcne
      have hsize : s.utf8ByteSize ≤ cfg.maxFileSize := by
        rw [hs] at hsz
        simpa using hsz
      have hstep := applyChange_good cfg runDir fs c s hval hs hsize hact
      -- path inequalities
      rw [List.map_cons] at hnd
      have hni := (List.nodup_cons.mp hnd).1
      have htl := (List.nodup_cons.mp hnd).2
      have hpathne : ∀ c' ∈ rest, c'.filePath.getD "" ≠ c.filePath.getD "" := by
        intro c' hc' heq
        exact hni (heq ▸ List.mem_map_of_mem _ hc')
      have habsne : ∀ c' ∈ rest, absOf cfg c' ≠ absOf cfg c :=
        fun c' hc' => pathJoin_right_ne (hpathne c' hc')
      have hbpne : ∀ c' ∈ rest, bpOf runDir c' ≠ bpOf runDir c :=
        fun c' hc' => pathJoin_right_ne (hpathne c' hc')
      have hmemc : c ∈ c :: rest := List.mem_cons_self c rest
      have hbac : bpOf runDir c ≠ absOf cfg c := hdisj c hmemc c hmemc
      -- reads on the post-step file system
      have hFSCother : ∀ q, q ≠ absOf cfg c → q ≠ bpOf runDir c →
          fsRead (fsWrite (CodeWriter.backupIfExists cfg runDir fs (c.filePath.getD ""))
            (absOf cfg c) s) q = fsRead fs q := by
        intro q h1 h2
        rw [fsRead_fsWrite, if_neg h1]
        exact backupIfExists_other cfg runDir fs _ q h2
      have hFSCabs : fsRead (fsWrite (CodeWriter.backupIfExists cfg runDir fs
            (c.filePath.getD "")) (absOf cfg c) s) (absOf cfg c) = some s := by
        rw [fsRead_fsWrite, if_pos rfl]
      have hFSCbp : fsRead (fsWrite (CodeWriter.backupIfExists cfg runDir fs
            (c.filePath.getD "")) (absOf cfg c) s) (bpOf runDir c) =
          (if fsExists fs (absOf cfg c) then fsRead fs (absOf cfg c)
           else fsRead fs (bpOf runDir c)) := by
        rw [fsRead_fsWrite, if_neg hbac]
        exact backupIfExists_bp cfg runDir fs _
      -- the tail is still a good run on the post-step file system
      have hgood' : GoodRun cfg runDir (fsWrite (CodeWriter.backupIfExists cfg runDir fs
          (c.filePath.getD "")) (absOf cfg c) s) rest := by
        refine ⟨fun c' hc' => hall c' (List.mem_cons_of_mem c hc'), htl, ?_, ?_, ?_⟩
        · intro c' hc' hm'
          have hold := hmodex c' (List.mem_cons_of_mem c hc') hm'
          unfold fsExists at hold ⊢
          rw [hFSCother (absOf cfg c') (habsne c' hc')
            (Ne.symm (hdisj c hmemc c' (List.mem_cons_of_mem c hc')))]
          exact hold
        · intro c' hc'
          rw [hFSCother (bpOf runDir c')
            (hdisj c' (List.mem_cons_of_mem c hc') c hmemc) (hbpne c' hc')]
          exact hbpfresh c' (List.mem_cons_of_mem c hc')
        · intro a ha b hb
          exact hdisj a (List.mem_cons_of_mem c ha) b (List.mem_cons_of_mem c hb)
      obtain ⟨herr2, hrecs2, hmod2, hcre2, hunt2⟩ :=
        ih (fsWrite (CodeWriter.backupIfExists cfg runDir fs (c.filePath.getD ""))
          (absOf cfg c) s) hgood'
      -- reduce the head step everywhere
      simp only [CodeWriter.applyList, hstep]
      refine ⟨by simp [herr2], by simp [hrecs2], ?_, ?_, ?_⟩
      · -- modify restoration
        intro c0 hc0 hm0
        rw [List.reverse_append, List.reverse_singleton]
        rw [rollbackList_append_fs, rollbackList_singleton_fs]
        rcases List.mem_cons.mp hc0 with heq | hc0'
        · subst heq
          have hrc : (if c0.action == some "modify" then "modify" else "create") = "modify" := by
            rw [hm0]
            rfl
          rw [hrc]
          have hexists : fsExists fs (absOf cfg c0) = true := hmodex c0 hmemc hm0
          have hbpv : fsRead (CodeWriter.rollbackList cfg
              (CodeWriter.applyList cfg runDir (fsWrite (CodeWriter.backupIfExists cfg runDir fs
                (c0.filePath.getD "")) (absOf cfg c0) s) rest).1
              (CodeWriter.applyList cfg runDir (fsWrite (CodeWriter.backupIfExists cfg runDir fs
                (c0.filePath.getD "")) (absOf cfg c0) s) rest).2.1.reverse).1
              (bpOf runDir c0) = fsRead fs (absOf cfg c0) := by
            rw [hunt2 (bpOf runDir c0) (fun c' hc' =>
              ⟨hdisj c0 hmemc c' (List.mem_cons_of_mem c0 hc'),
               Ne.symm (hbpne c' hc')⟩)]
            rw [hFSCbp, if_pos hexists]
          exact rollbackChange_modify_restore cfg runDir _ fs (c0.filePath.getD "") hbpv
            (by unfold fsExists at hexists; exact hexists)
        · rw [rollbackChange_untouched cfg _ _ _ (habsne c0 hc0')]
          rw [hmod2 c0 hc0' hm0]
          exact hFSCother (absOf cfg c0) (habsne c0 hc0')
            (Ne.symm (hdisj c hmemc c0 (List.mem_cons_of_mem c hc0')))
      · -- create deletion
        intro c0 hc0 hm0
        rw [List.reverse_append, List.reverse_singleton]
        rw [rollbackList_append_fs, rollbackList_singleton_fs]
        rcases List.mem_cons.mp hc0 with heq | hc0'
        · subst heq
          have hrc : (if c0.action == some "modify" then "modify" else "create") = "create" := by
            rw [hm0]
            rfl
          rw [hrc]
          exact rollbackChange_create_deletes cfg runDir _ (c0.filePath.getD "")
        · rw [rollbackChange_untouched cfg _ _ _ (habsne c0 hc0')]
          exact hcre2 c0 hc0' hm0
      · -- untouched paths
        intro q hq
        rw [List.reverse_append, List.reverse_singleton]
        rw [rollbackList_append_fs, rollbackList_singleton_fs]
        rw [rollbackChange_untouched cfg _ _ _ (hq c hmemc).1]
        rw [hunt2 q (fun c' hc' => hq c' (List.mem_cons_of_mem c hc'))]
        exact hFSCother q (hq c hmemc).1 (hq c hmemc).2

/-- C3 (amended): on a `GoodRun` (pairwise-distinct file paths, modify
targets existing pre-run, defined in-bounds contents, fresh per-run backup
directory disjoint from the targeted paths), after `CodeWriter.rollback()`
every file touched in the run is restored to its pre-run content (for modify
actions, copied back from the per-run backup) or absent (for create actions,
deleted), the applied-changes list is cleared, and calling `rollback()` a
second time immediately after is a no-op: it rolls back zero changes and
changes no file. -/
theorem writer_rollback_restores (cfg : WriterConfig) (runDir : String) (st : WriterState)
    (pl : Plan) (l : List FileChange) (hc : pl.changes = some l) (hl : l ≠ [])
    (hg : GoodRun cfg runDir st.fs l) :
    (∀ c ∈ l, c.action = some "modify" →
      fsRead (CodeWriter.rollback cfg (CodeWriter.apply cfg runDir st (some pl)).1).1.fs
        (absOf cfg c) = fsRead st.fs (absOf cfg c)) ∧
    (∀ c ∈ l, c.action = some "create" →
      fsRead (CodeWriter.rollback cfg (CodeWriter.apply cfg runDir st (some pl)).1).1.fs
        (absOf cfg c) = none) ∧
    (CodeWriter.rollback cfg (CodeWriter.apply cfg runDir st (some pl)).1).1.appliedChanges =
      [] ∧
    (∀ st' : WriterState, st'.appliedChanges = [] →
      CodeWriter.rollback cfg st' = (st', ⟨true, 0, []⟩)) := by
  obtain ⟨ps, pr, pe, pc⟩ := pl
  have hc' : pc = some l := hc
  subst hc'
  cases l with
  | nil => exact absurd rfl hl
  | cons x xs =>
      obtain ⟨herr, hrecs, hmod, hcre, hunt⟩ := applyList_roundtrip cfg runDir (x :: xs) st.fs hg
      have hredfs : (CodeWriter.rollback cfg
          (CodeWriter.apply cfg runDir st (some ⟨ps, pr, pe, some (x :: xs)⟩)).1).1.fs =
          (CodeWriter.rollbackList cfg (CodeWriter.applyList cfg runDir st.fs (x :: xs)).1
            ((CodeWriter.applyList cfg runDir st.fs (x :: xs)).2.1.reverse)).1 := rfl
      have hredac : (CodeWriter.rollback cfg
          (CodeWriter.apply cfg runDir st (some ⟨ps, pr, pe, some (x :: xs)⟩)).1).1.appliedChanges =
          [] := rfl
      refine ⟨?_, ?_, hredac, ?_⟩
      · intro c hcm hm
        rw [hredfs]
        exact hmod c hcm hm
      · intro c hcm hm
        rw [hredfs]
        exact hcre c hcm hm
      · intro st' hemp
        obtain ⟨fs', ac'⟩ := st'
        have : ac' = [] := hemp
        subst this
        rfl

/-- C3 witness: a two-change good run (modify `core/a.js`, create
`core/b.js`) from a disk holding `core/a.js = "orig"`: after apply and
rollback the modified file reads "orig" again. -/
theorem writer_rollback_restores_witness :
    fsRead (CodeWriter.rollback ⟨"/r", "/r/b", 51200, defaultAllowedPaths, defaultForbiddenPaths⟩
        (CodeWriter.apply ⟨"/r", "/r/b", 51200, defaultAllowedPaths, defaultForbiddenPaths⟩
          "/r/b/run-1" ⟨[("/r/core/a.js", "orig")], []⟩
          (some ⟨none, none, none, some
            [⟨some "modify", some "core/a.js", none, some "new"⟩,
             ⟨some "create", some "core/b.js", none, some "nb"⟩]⟩)).1).1.fs
      "/r/core/a.js" = some "orig" := by
  have h := writer_rollback_restores
    ⟨"/r", "/r/b", 51200, defaultAllowedPaths, defaultForbiddenPaths⟩ "/r/b/run-1"
    ⟨[("/r/core/a.js", "orig")], []⟩
    ⟨none, none, none, some
      [⟨some "modify", some "core/a.js", none, some "new"⟩,
       ⟨some "create", some "core/b.js", none, some "nb"⟩]⟩
    [⟨some "modify", some "core/a.js", none, some "new"⟩,
     ⟨some "create", some "core/b.js", none, some "nb"⟩]
    rfl (by decide) (by unfold GoodRun; decide)
  have h1 := h.1 ⟨some "modify", some "core/a.js", none, some "new"⟩ (by decide) rfl
  exact h1.trans (by decide)

/-- C3 counterexample: a plan listing the same path twice (two modifies of
`core/a.js`) from pre-run content "orig": the second backup overwrites the
first, so after apply-then-rollback the file reads "n1" — neither its
pre-run content nor absent — refuting the claim as stated for arbitrary
runs. -/
theorem writer_rollback_counterexample :
    fsRead ([("/r/core/a.js", "orig")] : FS) "/r/core/a.js" = some "orig" ∧
    fsRead (CodeWriter.rollback ⟨"/r", "/r/b", 51200, defaultAllowedPaths, defaultForbiddenPaths⟩
        (CodeWriter.apply ⟨"/r", "/r/b", 51200, defaultAllowedPaths, defaultForbiddenPaths⟩
          "/r/b/run-1" ⟨[("/r/core/a.js", "orig")], []⟩
          (some ⟨none, none, none, some
            [⟨some "modify", some "core/a.js", none, some "n1"⟩,
             ⟨some "modify", some "core/a.js", none, some "n2"⟩]⟩)).1).1.fs
      "/r/core/a.js" = some "n1" ∧
    (some ("n1" : String) ≠ some "orig") ∧ (some ("n1" : String) ≠ none) := by
  refine ⟨by decide, by decide, by decide, by decide⟩

/-- C4: `create` on an already-existing path.  The writer backs the existing
file up into the run's backup directory and overwrites it (the claim's first
half holds, nothing is silently skipped), but the applied record says
`create`, so a subsequent `rollback()` **deletes** the file instead of
restoring the backup: the pre-run content is gone from the working tree even
though its backup still exists. -/
theorem writer_create_existing_rollback_deletes :
    fsRead (CodeWriter.apply ⟨"/r", "/r/b", 51200, defaultAllowedPaths, defaultForbiddenPaths⟩
        "/r/b/run-1" ⟨[("/r/core/Existing.js", "old")], []⟩
        (some ⟨none, none, none, some
          [⟨some "create", some "core/Existing.js", none, some "new"⟩]⟩)).1.fs
      "/r/b/run-1/core/Existing.js" = some "old" ∧
    fsRead (CodeWriter.apply ⟨"/r", "/r/b", 51200, defaultAllowedPaths, defaultForbiddenPaths⟩
        "/r/b/run-1" ⟨[("/r/core/Existing.js", "old")], []⟩
        (some ⟨none, none, none, some
          [⟨some "create", some "core/Existing.js", none, some "new"⟩]⟩)).1.fs
      "/r/core/Existing.js" = some "new" ∧
    (CodeWriter.apply ⟨"/r", "/r/b", 51200, defaultAllowedPaths, defaultForbiddenPaths⟩
        "/r/b/run-1" ⟨[("/r/core/Existing.js", "old")], []⟩
        (some ⟨none, none, none, some
          [⟨some "create", some "core/Existing.js", none, some "new"⟩]⟩)).2.success = true ∧
    fsRead (CodeWriter.rollback ⟨"/r", "/r/b", 51200, defaultAllowedPaths, defaultForbiddenPaths⟩
        (CodeWriter.apply ⟨"/r", "/r/b", 51200, defaultAllowedPaths, defaultForbiddenPaths⟩
          "/r/b/run-1" ⟨[("/r/core/Existing.js", "old")], []⟩
          (some ⟨none, none, none, some
            [⟨some "create", some "core/Existing.js", none, some "new"⟩]⟩)).1).1.fs
      "/r/core/Existing.js" = none ∧
    fsRead (CodeWriter.rollback ⟨"/r", "/r/b", 51200, defaultAllowedPaths, defaultForbiddenPaths⟩
        (CodeWriter.apply ⟨"/r", "/r/b", 51200, defaultAllowedPaths, defaultForbiddenPaths⟩
          "/r/b/run-1" ⟨[("/r/core/Existing.js", "old")], []⟩
          (some ⟨none, none, none, some
            [⟨some "create", some "core/Existing.js", none, some "new"⟩]⟩)).1).1.fs
      "/r/b/run-1/core/Existing.js" = some "old" := by
  refine ⟨by decide, by decide, by decide, by decide, by decide⟩

end OpenClaw
